import Mathlib

/-!
Verification of `runai-interactive-context` (file `src/runai_interactive_context/cli.py`)
against its natural-language specification.

The Python code is shallowly embedded: pure parsing helpers become Lean functions
over `List Char` (the byte strings of the source are modelled at the ASCII/character
level), subprocess results and signals become explicit oracle values supplied by an
environment record, and the control flow of the launcher becomes a total Lean
function from that environment to an event trace plus a process outcome.
Python exceptions are modelled by an explicit `PyExc` type and `Except`.

The file is organised as definitions first, then theorems.
-/

/-! ## Definitions -/

/-- Python exceptions that the embedded code can raise or propagate. -/
inductive PyExc where
  /-- typer.Exit(code): caught by typer.run, which exits the process with `code`. -/
  | typerExit (code : Nat)
  /-- KeyboardInterrupt delivered by the default SIGINT handler. -/
  | keyboardInterrupt
  /-- FileNotFoundError raised by subprocess.run when the executable is missing. -/
  | fileNotFoundError
  /-- subprocess.CalledProcessError raised by Popen.check_returncode. -/
  | calledProcessError
  /-- ValueError (the message distinguishes the raise sites). -/
  | valueError (msg : String)
  /-- RuntimeError (contextlib raises it when a generator does not yield). -/
  | runtimeError (msg : String)
  deriving DecidableEq, Repr

deriving instance DecidableEq for Except

/-- Whitespace for Python byte strings: the class matched by the regex `\s`
and stripped by `bytes.strip` and `int()` (space, tab, LF, CR, VT, FF). -/
def pyIsSpace (c : Char) : Bool :=
  c = ' ' || c = '\t' || c = '\n' || c = '\r' || c = '\x0b' || c = '\x0c'

/-- Value of a CPython integer-literal digit run after its first digit:
digits with single underscores allowed between digits only
(so of `"1_2"` but not `"1__2"` or `"1_"`).  `acc` is the value read so far. -/
def pyDigitsGo (acc : Nat) : List Char → Option Nat
  | [] => some acc
  | [c] => if c.isDigit then some (acc * 10 + (c.toNat - 48)) else none
  | c :: c2 :: rest =>
    if c.isDigit then pyDigitsGo (acc * 10 + (c.toNat - 48)) (c2 :: rest)
    else if c = '_' then
      if c2.isDigit then pyDigitsGo (acc * 10 + (c2.toNat - 48)) rest else none
    else none

/-- Value of a nonempty CPython digit run (must start with a digit). -/
def pyDigits : List Char → Option Nat
  | [] => none
  | c :: rest => if c.isDigit then pyDigitsGo (c.toNat - 48) rest else none

/-- Model of Python `int(s)` / `int(s, 10)` on ASCII byte strings: strip
surrounding whitespace, allow one sign, then a digit run with underscores. -/
def pyInt (l : List Char) : Option Int :=
  match ((l.dropWhile pyIsSpace).reverse.dropWhile pyIsSpace).reverse with
  | [] => none
  | c :: rest =>
    if c = '+' then (pyDigits rest).map Int.ofNat
    else if c = '-' then (pyDigits rest).map (fun n => -(n : Int))
    else (pyDigits (c :: rest)).map Int.ofNat

/-- Fuelled worker for `pySplit`; the fuel only serves structural recursion and
is irrelevant as soon as it is at least the length of the list
(`pySplitF_fuel` below). -/
def pySplitF (s0 : Char) (ss : List Char) : Nat → List Char → List (List Char)
  | _, [] => [[]]
  | 0, l => [l]
  | fuel + 1, c :: rest =>
    if (s0 :: ss).isPrefixOf (c :: rest) then
      [] :: pySplitF s0 ss fuel (rest.drop ss.length)
    else
      match pySplitF s0 ss fuel rest with
      | part :: parts => (c :: part) :: parts
      | [] => [[c]]

/-- Model of Python `bytes.split(sep)` for a nonempty separator `s0 :: ss`:
split on every non-overlapping occurrence, scanning left to right.
As in Python, the result is never empty and `[] ↦ [[]]`. -/
def pySplit (s0 : Char) (ss : List Char) (l : List Char) : List (List Char) :=
  pySplitF s0 ss l.length l

/-- Does `sep` occur as a contiguous run anywhere in `l`? -/
def hasOcc (sep : List Char) : List Char → Bool
  | [] => sep.isPrefixOf []
  | c :: rest => sep.isPrefixOf (c :: rest) || hasOcc sep rest

/-- Decimal value of a digit list, as accumulated by the embedding of `int`. -/
def digitStep (acc : Nat) (c : Char) : Nat := acc * 10 + (c.toNat - 48)

/-- Decimal value of a digit list. -/
def digitsVal (l : List Char) : Nat := l.foldl digitStep 0

/-- Model of the Python two-element tuple unpacking `a, b = xs`, which raises
a `ValueError` unless `xs` has exactly two elements. -/
def unpack2 (xs : List (List Char)) : Except PyExc (List Char × List Char) :=
  match xs with
  | [a, b] => .ok (a, b)
  | _ => .error (.valueError "values to unpack")

/-- Model of a Python `int(s)` call in value position: raises `ValueError` on
an unparsable string. -/
def pyIntExc (l : List Char) : Except PyExc Int :=
  match pyInt l with
  | some n => .ok n
  | none => .error (.valueError "invalid literal for int with base 10")

/-- Translation of `kubectl_output_extract_forwarded_port` (cli.py lines 180-188).
Lines not starting with `Forwarding` give `none`; otherwise the line is split on
`":"` and the part after the colon on `" -> "`, both via two-element tuple
destructuring (a `ValueError` when the split does not have exactly two parts),
and the source port is parsed with `int` (a `ValueError` when non-numeric). -/
def kubectl_output_extract_forwarded_port (stdout_line : String) :
    Except PyExc (Option Int) :=
  if ¬ ("Forwarding".data.isPrefixOf stdout_line.data) then .ok none
  else
    match unpack2 (pySplit ':' [] stdout_line.data) with
    | .error e => .error e
    | .ok (_, ports_map) =>
      match unpack2 (pySplit ' ' ['-', '>', ' '] ports_map) with
      | .error e => .error e
      | .ok (src_port, _) =>
        match pyIntExc src_port with
        | .error e => .error e
        | .ok n => .ok (some n)

/-- Model of Python `str.partition(sep)` for a nonempty `sep`, splitting at the
first occurrence: returns (before, found, after).  As in Python, when the
separator is absent the result is `(l, false, [])`. -/
def pyPartition (sep : List Char) : List Char → (List Char × Bool × List Char)
  | [] => if sep.isPrefixOf [] then ([], true, []) else ([], false, [])
  | c :: rest =>
    if sep.isPrefixOf (c :: rest) then ([], true, (c :: rest).drop sep.length)
    else
      let p := pyPartition sep rest
      (c :: p.1, p.2.1, p.2.2)

/-- Model of Python `str.rpartition(sep)` for a nonempty `sep`, splitting at the
last occurrence: returns (before, found, after).  As in Python, when the
separator is absent the result is `([], false, l)`. -/
def pyRPartition (sep : List Char) : List Char → (List Char × Bool × List Char)
  | [] => if sep.isPrefixOf [] then ([], true, []) else ([], false, [])
  | c :: rest =>
    let p := pyRPartition sep rest
    if p.2.1 then (c :: p.1, true, p.2.2)
    else if sep.isPrefixOf (c :: rest) then ([], true, (c :: rest).drop sep.length)
    else ([], false, c :: rest)

/-- Characters allowed after the first character of a URL scheme
(urllib.parse.scheme_chars: ASCII letters, digits, `+`, `-`, `.`). -/
def isSchemeChar (c : Char) : Bool :=
  c.isAlpha || c.isDigit || c = '+' || c = '-' || c = '.'

/-- Does a candidate scheme (the part before the first `:`) qualify under
urlsplit's rule: nonempty, ASCII-alphabetic first character, scheme characters
after it? -/
def schemeOk : List Char → Bool
  | [] => false
  | c :: rest => c.isAlpha && rest.all isSchemeChar

/-- Characters that end the netloc in urlsplit's `_splitnetloc`. -/
def netlocCont (c : Char) : Bool := !(c = '/' || c = '?' || c = '#')

/-- Result shape of `urllib.parse.urlparse` (the five components used by the
code; parameters are irrelevant here). -/
structure UrlObj where
  scheme : List Char
  netloc : List Char
  path : List Char
  query : List Char
  fragment : List Char
  deriving DecidableEq, Repr

/-- Model of `urllib.parse.urlsplit`/`urlparse` restricted to what the code
consumes.  Differences from CPython, all irrelevant to candidates produced by
the `http\S+` regex (maximal non-whitespace runs starting with `http`): the
removal of tab/CR/LF and the lstrip of C0 control characters are omitted
(vacuous on such candidates), and `_check_bracketed_host` is not modelled (the
model accepts any bracketed host; no claim exercises IPv6 literals, and both
scrapers compared below share this model).  The mismatched-bracket
`Invalid IPv6 URL` ValueError is modelled. -/
def pyUrlsplit (url : List Char) : Except PyExc UrlObj :=
  let p := pyPartition [':'] url
  let sr : List Char × List Char :=
    if p.2.1 && schemeOk p.1 then (p.1.map Char.toLower, p.2.2) else ([], url)
  let nr : List Char × List Char :=
    if ['/', '/'].isPrefixOf sr.2 then
      ((sr.2.drop 2).takeWhile netlocCont, (sr.2.drop 2).dropWhile netlocCont)
    else ([], sr.2)
  if (nr.1.contains '[' && !(nr.1.contains ']')) ||
      (nr.1.contains ']' && !(nr.1.contains '[')) then
    .error (.valueError "Invalid IPv6 URL")
  else
    let f := pyPartition ['#'] nr.2
    let q := pyPartition ['?'] f.1
    .ok ⟨sr.1, nr.1, q.1, q.2.2, f.2.2⟩

/-- Model of the `port` property of a urlsplit result: the text after the last
`@` and the first `:` of the host info (after the closing bracket for a
bracketed host), parsed with `int(..., 10)`; `None` when empty, a `ValueError`
when non-numeric or out of the range 0..65535. -/
def pyUrlPort (u : UrlObj) : Except PyExc (Option Nat) :=
  let hostinfo := (pyRPartition ['@'] u.netloc).2.2
  let br := pyPartition ['['] hostinfo
  let port :=
    if br.2.1 then (pyPartition [':'] (pyPartition [']'] br.2.2).2.2).2.2
    else (pyPartition [':'] hostinfo).2.2
  if port = [] then .ok none
  else
    match pyInt port with
    | none => .error (.valueError "Port could not be cast to integer value")
    | some n =>
      if 0 ≤ n ∧ n ≤ 65535 then .ok (some n.toNat)
      else .error (.valueError "Port out of range 0-65535")

/-- Value of an ASCII hex digit, as accepted by percent-decoding. -/
def hexDigitVal (c : Char) : Option Nat :=
  if c.isDigit then some (c.toNat - 48)
  else if 'a' ≤ c && c ≤ 'f' then some (c.toNat - 87)
  else if 'A' ≤ c && c ≤ 'F' then some (c.toNat - 55)
  else none

/-- Model of `urllib.parse.unquote` at the byte level: each valid `%XX` escape
becomes the character of that byte value, invalid escapes are kept verbatim.
(CPython decodes consecutive escaped bytes as UTF-8 with errors=replace; the
two agree on ASCII escapes, and no claim exercises non-ASCII escapes.) -/
def pyUnquote : List Char → List Char
  | [] => []
  | '%' :: c1 :: c2 :: rest =>
    match hexDigitVal c1, hexDigitVal c2 with
    | some h1, some h2 => Char.ofNat (16 * h1 + h2) :: pyUnquote rest
    | _, _ => '%' :: pyUnquote (c1 :: c2 :: rest)
  | c :: rest => c :: pyUnquote rest

/-- Plus-to-space replacement applied by `parse_qsl` before unquoting. -/
def plusToSpace (l : List Char) : List Char :=
  l.map (fun c => if c = '+' then ' ' else c)

/-- Model of `urllib.parse.parse_qsl` with default arguments (separator `&`,
blank values dropped, `=`-less fields dropped, names and values unquoted). -/
def parse_qsl (qs : List Char) : List (List Char × List Char) :=
  (pySplit '&' [] qs).foldr
    (fun nv acc =>
      if nv = [] then acc
      else
        let p := pyPartition ['='] nv
        if p.2.1 then
          if p.2.2 = [] then acc
          else (pyUnquote (plusToSpace p.1), pyUnquote (plusToSpace p.2.2)) :: acc
        else acc)
    []

/-- First value bound to `key` in a query string, i.e.
`parse_qs(qs).get(key)[0]` when the key is present (`parse_qs` groups values
per key in query order, so the first entry of the group is the first
occurrence). -/
def qsGetFirst (qs key : List Char) : Option (List Char) :=
  (((parse_qsl qs).filter (fun p => p.1 = key)).head?).map (fun p => p.2)

/-- The `JupyterConnectionDetails` NamedTuple of cli.py (lines 88-90). -/
structure JupyterConnectionDetails where
  container_port : Nat
  token : List Char
  deriving DecidableEq, Repr

/-- The body of the loop of `find_jupyter_details_in_logs` (cli.py lines
239-246) for one URL candidate: parse it, look up a `token` query parameter,
and if present build the details from `url_obj.port` with the 80/443 default.
Accessing `.port` can raise a ValueError in Python; that is propagated. -/
def jupyterDetailOfUrl (url : List Char) : Except PyExc (Option JupyterConnectionDetails) :=
  match pyUrlsplit url with
  | .error e => .error e
  | .ok u =>
    match qsGetFirst u.query "token".data with
    | none => .ok none
    | some v =>
      match pyUrlPort u with
      | .error e => .error e
      | .ok portOpt =>
        let port :=
          match portOpt with
          | some p => p
          | none => if u.scheme = "http".data then 80 else 443
        .ok (some ⟨port, v⟩)

/-- Does the regex `http\S+` match at the head of `l`?  It does when `l`
starts with the literal `http` followed by at least one non-whitespace
character (the `\S+` must capture a nonempty run). -/
def httpMatchAt (l : List Char) : Bool :=
  "http".data.isPrefixOf l && !((l.drop 4).takeWhile (fun x => !pyIsSpace x)).isEmpty

/-- Fuelled worker for `findallHttp` (fuel is irrelevant once at least the
length of the list; see `findallHttpF_fuel`). -/
def findallHttpF : Nat → List Char → List (List Char)
  | _, [] => []
  | 0, _ => []
  | fuel + 1, c :: rest =>
    if httpMatchAt (c :: rest) then
      ("http".data ++ ((c :: rest).drop 4).takeWhile (fun x => !pyIsSpace x)) ::
        findallHttpF fuel
          ((c :: rest).drop (4 + (((c :: rest).drop 4).takeWhile (fun x => !pyIsSpace x)).length))
    else findallHttpF fuel rest

/-- Model of `URL_RE.findall(line)` for `URL_RE = re.compile(rb"http\S+")`:
the leftmost non-overlapping matches, each maximal (`\S+` is greedy and
nothing follows it in the pattern). -/
def findallHttp (l : List Char) : List (List Char) := findallHttpF l.length l

/-- Fuelled worker for `pyTokens`. -/
def pyTokensF : Nat → List Char → List (List Char)
  | _, [] => []
  | 0, _ => []
  | fuel + 1, c :: rest =>
    if pyIsSpace c then pyTokensF fuel rest
    else (c :: rest.takeWhile (fun x => !pyIsSpace x)) ::
      pyTokensF fuel (rest.dropWhile (fun x => !pyIsSpace x))

/-- The whitespace-delimited tokens of a byte string (maximal runs of
non-whitespace characters), the vocabulary in which claim C5 is phrased. -/
def pyTokens (l : List Char) : List (List Char) := pyTokensF l.length l

/-- The suffix of a token starting at the first occurrence of `http`, if any. -/
def httpSuffix : List Char → Option (List Char)
  | [] => none
  | c :: rest =>
    if "http".data.isPrefixOf (c :: rest) then some (c :: rest) else httpSuffix rest

/-- The candidate contributed by one whitespace-delimited token: its suffix
from the first occurrence of `http`, provided at least one character follows
that occurrence. -/
def tokenCandidate (t : List Char) : Option (List Char) :=
  match httpSuffix t with
  | some s => if 5 ≤ s.length then some s else none
  | none => none

/-- The scan over URL candidates done by `find_jupyter_details_in_logs`:
return the details of the first candidate exposing a token parameter,
propagate any exception, `none` when no candidate matches. -/
def scanCandidates : List (List Char) → Except PyExc (Option JupyterConnectionDetails)
  | [] => .ok none
  | u :: rest =>
    match jupyterDetailOfUrl u with
    | .error e => .error e
    | .ok (some d) => .ok (some d)
    | .ok none => scanCandidates rest

/-- Translation of `find_jupyter_details_in_logs` (cli.py lines 237-246):
scan the regex matches of `http\S+` in order. -/
def find_jupyter_details_in_logs (line : String) :
    Except PyExc (Option JupyterConnectionDetails) :=
  scanCandidates (findallHttp line.data)

/-- The scraper claim C5 describes, built from the claim's words: consider the
whitespace-delimited tokens beginning with `http`, in order. -/
def claimTokenScraper (line : String) :
    Except PyExc (Option JupyterConnectionDetails) :=
  scanCandidates ((pyTokens line.data).filter (fun t => "http".data.isPrefixOf t))

/-- The amended scraper: within each whitespace-delimited token, the candidate
is the suffix starting at the first occurrence of `http` (when at least one
character follows), in token order. -/
def amendedTokenScraper (line : String) :
    Except PyExc (Option JupyterConnectionDetails) :=
  scanCandidates ((pyTokens line.data).filterMap tokenCandidate)


/-- The `RunAIJobStatus` enum of cli.py (lines 69-79). -/
inductive RunAIJobStatus where
  | PENDING
  | CONTAINERCREATING
  | RUNNING
  | NOT_READY
  | IMAGEPULLBACKOFF
  | DOES_NOT_EXISTS
  deriving DecidableEq, Repr

/-- Translation of `RunAIJobStatus.from_str`: `getattr(cls, value.upper(),
NOT_READY)` maps the upper-cased scheduler string to the member of that name
and anything unrecognized to `NOT_READY` (ASCII-level model of `str.upper`). -/
def RunAIJobStatus.from_str (value : String) : RunAIJobStatus :=
  let u := value.data.map Char.toUpper
  if u = "PENDING".data then .PENDING
  else if u = "CONTAINERCREATING".data then .CONTAINERCREATING
  else if u = "RUNNING".data then .RUNNING
  else if u = "NOT_READY".data then .NOT_READY
  else if u = "IMAGEPULLBACKOFF".data then .IMAGEPULLBACKOFF
  else if u = "DOES_NOT_EXISTS".data then .DOES_NOT_EXISTS
  else .NOT_READY

/-- The `RunAIJobDetails` NamedTuple of cli.py (lines 82-85). -/
structure RunAIJobDetails where
  name : String
  pod_name : String
  status : RunAIJobStatus
  deriving DecidableEq, Repr

/-- Observable events of one launcher run; the subset of the launcher's
side effects that the claims talk about (console prints other than the
one-time creating-container notice are elided, as no claim concerns them). -/
inductive Ev where
  /-- the `check_command("runai", "--help")` probe and its outcome -/
  | checkCmd (ok : Bool)
  /-- the `runai submit` call and its return code -/
  | submit (rc : Int)
  /-- one `runai describe job` status query -/
  | describe
  /-- the one-time `Creating container...` notice -/
  | printCreating
  /-- a `time.sleep(n)` pause -/
  | sleep (n : Nat)
  /-- one `runai logs` fetch -/
  | logsFetch
  /-- spawning the `kubectl port-forward` child -/
  | forwardSpawn
  /-- the forwarded port was scraped from kubectl's stdout (bind succeeded) -/
  | forwardBind (port : Int)
  /-- the `runai delete job` cleanup command -/
  | deleteJob
  /-- `proc.terminate()` on the port-forward child -/
  | terminateForward
  deriving DecidableEq, Repr

/-- How the whole operating-system process ends: with an exit code, or never
(an unbounded wait with no interrupt). -/
inductive Outcome where
  | exit (code : Nat)
  | hang
  deriving DecidableEq, Repr

/-- How a phase of the launcher ends when it does not return normally:
a propagating Python exception, or no termination at all. -/
inductive Term where
  | exc (e : PyExc)
  | hang
  deriving DecidableEq, Repr

/-- Exit callbacks that can be registered on the `ExitStack` (head = most
recently registered, so running the list left to right is LIFO order). -/
inductive Cleanup where
  /-- `RunAIInteractiveJob.__exit__`: run `runai delete job` -/
  | deleteJob
  /-- the `finally: proc.terminate()` of `kubectl_pod_forward_port` -/
  | terminateForward
  deriving DecidableEq, Repr

/-- Result of the `subprocess.run` probe made by `check_command`: the
executable may be missing (FileNotFoundError, caught there) or run with some
return code. -/
inductive CmdResult where
  | notFound
  | ran (rc : Int)
  deriving DecidableEq, Repr

/-- What `runai describe job --output json` printed when it ran. -/
inductive DescribeOut where
  /-- stdout that `json.loads` rejects -/
  | invalidJson
  /-- a JSON object with the three consumed fields -/
  | payload (name chiefName status : String)
  deriving DecidableEq, Repr

/-- Result of one `runai describe job` invocation. -/
inductive DescribeResult where
  | notFound
  | ran (rc : Int) (out : DescribeOut)
  deriving DecidableEq, Repr

/-- Result of one `runai logs` invocation. -/
inductive LogsResult where
  | notFound
  | ran (rc : Int) (stdout : String)

/-- Everything the environment decides during one run of the launcher:
outcomes of the external commands, the kubectl stdout stream, and when the
operator interrupt arrives. -/
structure Env where
  /-- outcome of `check_command("runai", "--help")` -/
  runaiHelp : CmdResult
  /-- return code of `runai submit` -/
  submitRc : Int
  /-- outcomes of the successive status queries while waiting (when the list
  is exhausted without a terminating status, the unbounded poll loop hangs) -/
  describes : List DescribeResult
  /-- the lines kubectl port-forward writes to stdout before closing it -/
  kubectlLines : List String
  /-- outcome of the log fetch on each retry attempt of the jupyter scraper -/
  logsFetch : Nat → LogsResult
  /-- how `_wait_until_interrupted` ends: `some e` when an interrupt (or the
  SIGHUP handler's `typer.Exit`) arrives, `none` when nothing ever does -/
  activeExit : Option PyExc
  /-- whether a SIGINT arrives while the exit stack is unwinding; it is
  deferred by `DelayedKeyboardInterrupt` and re-raised after the cleanups -/
  interruptDuringCleanup : Bool

/-- The `RunAIInteractiveMode` enum of cli.py (lines 60-66). -/
inductive RunAIInteractiveMode where
  | shell
  | port
  | jupyter
  deriving DecidableEq, Repr

/-- The CLI arguments of `interactive_context`. -/
structure Params where
  job_name : String
  image : String
  args : List String
  mode : RunAIInteractiveMode
  container_port : Option Int

/-- Translation of `check_command` (cli.py lines 97-111): False when the
executable is missing or the return code is nonzero. -/
def check_command : CmdResult → Bool
  | .notFound => false
  | .ran rc => rc == 0

/-- Translation of `get_runai_job_status` (cli.py lines 114-126).  A nonzero
exit is mapped to a synthetic `DOES_NOT_EXISTS` detail; a missing executable
is NOT caught here (unlike in `check_command`), so `subprocess.run` raises
FileNotFoundError; undecodable stdout raises from `json.loads`. -/
def get_runai_job_status (job_name : String) (r : DescribeResult) :
    Except PyExc RunAIJobDetails :=
  match r with
  | .notFound => .error .fileNotFoundError
  | .ran rc out =>
    if rc != 0 then .ok ⟨job_name, job_name, .DOES_NOT_EXISTS⟩
    else
      match out with
      | .invalidJson => .error (.valueError "Expecting value")
      | .payload n c s => .ok ⟨n, c, RunAIJobStatus.from_str s⟩

/-- Translation of `wait_until_job_started` (cli.py lines 129-145) over the
list of query outcomes: poll until `RUNNING`, abort with `typer.Exit(1)` on
`DOES_NOT_EXISTS` or `IMAGEPULLBACKOFF`, print the creating-container notice
at most once, sleep 5 between polls.  An exhausted oracle models the unbounded
loop never seeing a terminating status: the process hangs. -/
def wait_until_job_started (job_name : String) :
    Bool → List DescribeResult → List Ev × Except Term RunAIJobDetails
  | _, [] => ([], .error .hang)
  | notified, r :: rest =>
    match get_runai_job_status job_name r with
    | .error e => ([.describe], .error (.exc e))
    | .ok job =>
      if job.status = .RUNNING then ([.describe], .ok job)
      else if job.status = .DOES_NOT_EXISTS then ([.describe], .error (.exc (.typerExit 1)))
      else if job.status = .IMAGEPULLBACKOFF then ([.describe], .error (.exc (.typerExit 1)))
      else
        let notice := job.status == .CONTAINERCREATING && !notified
        let w := wait_until_job_started job_name (notified || notice) rest
        (.describe :: ((if notice then [.printCreating] else []) ++ .sleep 5 :: w.1), w.2)

/-- The `RunAIInteractiveJob` dataclass of cli.py (lines 148-177). -/
structure RunAIInteractiveJob where
  job_name : String
  image : String
  command : List String

/-- Translation of `RunAIInteractiveJob.submit`: run `runai submit`; a nonzero
exit raises `typer.Exit(1)`; on success, wait for the job to start. -/
def RunAIInteractiveJob.submit (j : RunAIInteractiveJob) (env : Env) :
    List Ev × Except Term RunAIJobDetails :=
  if env.submitRc != 0 then ([.submit env.submitRc], .error (.exc (.typerExit 1)))
  else
    let w := wait_until_job_started j.job_name false env.describes
    (.submit 0 :: w.1, w.2)

/-- Which exceptions the `retry` decorator of
`extract_jupyter_details_from_job` catches:
`(subprocess.CalledProcessError, ValueError)`. -/
def retryCaught : PyExc → Bool
  | .calledProcessError => true
  | .valueError _ => true
  | _ => false

/-- Translation of the `retry` library's loop (`__retry_internal`):
`while _tries: try: return f() except exceptions: _tries -= 1;
if not _tries: raise; sleep(_delay)`.  `i` numbers the attempts, `t` is
`_tries`; exceptions outside the caught classes propagate immediately, and
after the final failure the last exception is re-raised.  The entry point uses
`t = tries > 0`; the `t = 0` equation is unreachable from it and only keeps
the recursion total. -/
def retryGo {w : Type} (f : Nat → List Ev × Except PyExc w) (delay : Nat) :
    Nat → Nat → List Ev × Except PyExc w
  | i, 0 => f i
  | i, t + 1 =>
    match f i with
    | (evs, .ok a) => (evs, .ok a)
    | (evs, .error e) =>
      if retryCaught e then
        if t = 0 then (evs, .error e)
        else
          let w := retryGo f delay (i + 1) t
          (evs ++ .sleep delay :: w.1, w.2)
      else (evs, .error e)

/-- One attempt of the body of `extract_jupyter_details_from_job` (cli.py
lines 249-257): fetch the logs (`check_returncode` raises
CalledProcessError on a nonzero exit), scrape them, and raise
`ValueError("No jupyter details found")` when nothing was found. -/
def extractAttempt (logs : Nat → LogsResult) (i : Nat) :
    List Ev × Except PyExc JupyterConnectionDetails :=
  match logs i with
  | .notFound => ([.logsFetch], .error .fileNotFoundError)
  | .ran rc out =>
    if rc != 0 then ([.logsFetch], .error .calledProcessError)
    else
      match find_jupyter_details_in_logs out with
      | .error e => ([.logsFetch], .error e)
      | .ok none => ([.logsFetch], .error (.valueError "No jupyter details found"))
      | .ok (some d) => ([.logsFetch], .ok d)

/-- Translation of `extract_jupyter_details_from_job` with its decorator
`@retry.retry((CalledProcessError, ValueError), delay=10, tries=20)`. -/
def extract_jupyter_details_from_job (logs : Nat → LogsResult) :
    List Ev × Except PyExc JupyterConnectionDetails :=
  retryGo (extractAttempt logs) 10 0 20

/-- The scan of `kubectl_pod_forward_port` (cli.py lines 191-207) up to its
`yield`: read stdout lines, parse each with
`kubectl_output_extract_forwarded_port` (whose ValueError propagates), and
bind at the first parsed port.  A closed stream without a bind makes
contextlib raise `RuntimeError("generator did not yield")`. -/
def forwardScan : List String → List Ev × Except Term Int
  | [] => ([], .error (.exc (.runtimeError "generator did not yield")))
  | line :: rest =>
    match kubectl_output_extract_forwarded_port line with
    | .error e => ([], .error (.exc e))
    | .ok none => forwardScan rest
    | .ok (some p) => ([.forwardBind p], .ok p)

/-- Translation of `_wait_until_interrupted` (cli.py lines 210-212): an
infinite sleep loop that only ends when a signal handler raises. -/
def _wait_until_interrupted (env : Env) : Term :=
  match env.activeExit with
  | some e => .exc e
  | none => .hang

/-- Translation of `_handle_shell_context` (cli.py lines 215-217): print the
connect instruction and block. -/
def _handle_shell_context (env : Env) (stack : List Cleanup) :
    List Ev × List Cleanup × Term :=
  ([], stack, _wait_until_interrupted env)

/-- Translation of `_handle_port_context` (cli.py lines 220-231):
`exit_stack.enter_context(kubectl_pod_forward_port ...)` spawns kubectl and
scans for the bind; only a successful `__enter__` registers the terminating
exit callback (LIFO, so it runs before the job delete); then print the URL and
block.  The container port only shapes the kubectl argv. -/
def _handle_port_context (env : Env) (stack : List Cleanup) (_container_port : Int) :
    List Ev × List Cleanup × Term :=
  match forwardScan env.kubectlLines with
  | (evs, .error t) => (.forwardSpawn :: evs, stack, t)
  | (evs, .ok _) =>
    (.forwardSpawn :: evs, .terminateForward :: stack, _wait_until_interrupted env)

/-- Translation of `_handle_jupyter_context` (cli.py lines 260-267): resolve
the notebook endpoint (exhausted retries re-raise the last exception), then
behave as port mode on the scraped container port. -/
def _handle_jupyter_context (env : Env) (stack : List Cleanup) :
    List Ev × List Cleanup × Term :=
  match extract_jupyter_details_from_job env.logsFetch with
  | (evs, .error e) => (evs, stack, .exc e)
  | (evs, .ok d) =>
    let pc := _handle_port_context env stack (Int.ofNat d.container_port)
    (evs ++ pc.1, pc.2.1, pc.2.2)

/-- The body of the `with DelayedKeyboardInterruptExitStack()` block of
`interactive_context` (cli.py lines 295-310): push the job cleanup BEFORE
submitting, submit, then dispatch on the mode.  Every path ends in a `Term`
(the mode handlers block until a signal raises), carrying the registered
cleanups. -/
def contextBody (env : Env) (p : Params) : List Ev × List Cleanup × Term :=
  match (RunAIInteractiveJob.mk p.job_name p.image p.args).submit env with
  | (evs, .error t) => (evs, [.deleteJob], t)
  | (evs, .ok _job) =>
    match p.mode with
    | .shell =>
      let h := _handle_shell_context env [.deleteJob]
      (evs ++ h.1, h.2.1, h.2.2)
    | .port =>
      let h := _handle_port_context env [.deleteJob] (p.container_port.getD 0)
      (evs ++ h.1, h.2.1, h.2.2)
    | .jupyter =>
      let h := _handle_jupyter_context env [.deleteJob]
      (evs ++ h.1, h.2.1, h.2.2)

/-- The event a registered cleanup emits when the stack unwinds. -/
def cleanupEv : Cleanup → Ev
  | .deleteJob => .deleteJob
  | .terminateForward => .terminateForward

/-- How the operating-system process exit code is derived from the exception
escaping `main`: `typer.run` converts `typer.Exit(code)` to `sys.exit(code)`;
an uncaught KeyboardInterrupt exits 130 (128 + SIGINT); any other uncaught
exception exits 1 after a traceback. -/
def outcomeOf : PyExc → Outcome
  | .typerExit c => .exit c
  | .keyboardInterrupt => .exit 130
  | _ => .exit 1

/-- The `DelayedKeyboardInterruptExitStack.__exit__` semantics: when the body
ends with an exception, run the registered cleanups in LIFO order with SIGINT
deferred; a SIGINT recorded during the cleanups is re-raised afterwards (the
original SIGINT handler at that point is the default one), replacing the
in-flight exception.  A hanging body never unwinds. -/
def runStack (env : Env) (body : List Ev × List Cleanup × Term) : List Ev × Outcome :=
  match body with
  | (evs, _, .hang) => (evs, .hang)
  | (evs, stack, .exc e) =>
    (evs ++ stack.map cleanupEv,
      outcomeOf (if env.interruptDuringCleanup then PyExc.keyboardInterrupt else e))

/-- Translation of `interactive_context` (cli.py lines 270-310): the two
precondition checks abort with exit 1 before any remote side effect; then the
exit-stack body runs with guaranteed unwinding. -/
def interactive_context (env : Env) (p : Params) : List Ev × Outcome :=
  if ¬ check_command env.runaiHelp then ([.checkCmd false], .exit 1)
  else if p.mode = .port ∧ p.container_port = none then ([.checkCmd true], .exit 1)
  else
    let r := runStack env (contextBody env p)
    (.checkCmd true :: r.1, r.2)


/-- Classification of one extraction attempt: success, a failure in one of
the two caught (retried) categories, or a non-retried exception. -/
inductive AttemptClass where
  | succeeds
  | retried
  | fatal
  deriving DecidableEq, Repr

/-- The class of attempt `i` of the jupyter extraction: both the log fetch
failing (CalledProcessError) and a successful fetch whose logs hold no
endpoint (ValueError) fall into the same `retried` class. -/
def attemptClass (logs : Nat → LogsResult) (i : Nat) : AttemptClass :=
  match (extractAttempt logs i).2 with
  | .ok _ => .succeeds
  | .error e => if retryCaught e then .retried else .fatal

/-- The number of attempts the retry loop makes, as a function of the attempt
classes alone (`i` = first attempt, `t` = remaining tries). -/
def budgetCounts (cls : Nat → AttemptClass) : Nat → Nat → Nat
  | _, 0 => 1
  | i, t + 1 =>
    match cls i with
    | .succeeds => 1
    | .fatal => 1
    | .retried => if t = 0 then 1 else 1 + budgetCounts cls (i + 1) t

/-! ## Theorems -/

theorem pySplitF_fuel (s0 : Char) (ss : List Char) :
    ∀ fuel fuel2 l, l.length ≤ fuel → l.length ≤ fuel2 →
      pySplitF s0 ss fuel l = pySplitF s0 ss fuel2 l := by
  intro fuel
  induction fuel with
  | zero =>
    intro fuel2 l hl _
    match l with
    | [] => cases fuel2 <;> rfl
    | c :: rest => simp at hl
  | succ fuel ih =>
    intro fuel2 l hl hl2
    match l with
    | [] => cases fuel2 <;> rfl
    | c :: rest =>
      match fuel2 with
      | 0 => simp at hl2
      | fuel2 + 1 =>
        simp only [List.length_cons, Nat.succ_le_succ_iff] at hl hl2
        simp only [pySplitF]
        have hdrop : (rest.drop ss.length).length ≤ fuel := by
          simp only [List.length_drop]; omega
        have hdrop2 : (rest.drop ss.length).length ≤ fuel2 := by
          simp only [List.length_drop]; omega
        rw [ih fuel2 (rest.drop ss.length) hdrop hdrop2, ih fuel2 rest hl hl2]

/-- Unfolding lemma for `pySplit` on a nonempty list, hiding the fuel. -/
theorem pySplit_cons (s0 : Char) (ss : List Char) (c : Char) (rest : List Char) :
    pySplit s0 ss (c :: rest) =
      if (s0 :: ss).isPrefixOf (c :: rest) then
        [] :: pySplit s0 ss (rest.drop ss.length)
      else
        match pySplit s0 ss rest with
        | part :: parts => (c :: part) :: parts
        | [] => [[c]] := by
  show pySplitF s0 ss (rest.length + 1) (c :: rest) = _
  simp only [pySplitF, pySplit]
  rw [pySplitF_fuel s0 ss rest.length ((rest.drop ss.length).length) (rest.drop ss.length)
    (by simp [List.length_drop]) (le_refl _)]

theorem pySplit_ne_nil (s0 : Char) (ss l : List Char) : pySplit s0 ss l ≠ [] := by
  show pySplitF s0 ss l.length l ≠ []
  generalize l.length = fuel
  induction fuel generalizing l with
  | zero => cases l <;> simp [pySplitF]
  | succ fuel ih =>
    cases l with
    | nil => simp [pySplitF]
    | cons c rest =>
      simp only [pySplitF]
      split
      · simp
      · cases h : pySplitF s0 ss fuel rest with
        | nil => exact absurd h (ih rest)
        | cons part parts => simp

/-- Splitting a list in which the separator does not occur returns the singleton. -/
theorem pySplit_no_occ (s0 : Char) (ss : List Char) :
    ∀ l, hasOcc (s0 :: ss) l = false → pySplit s0 ss l = [l] := by
  intro l
  induction l with
  | nil => intro _; rfl
  | cons c rest ih =>
    intro h
    simp only [hasOcc, Bool.or_eq_false_iff] at h
    rw [pySplit_cons, if_neg (by simp [h.1])]
    rw [ih h.2]

/-- Splitting at the first separator occurrence: if the head character of the
separator never occurs in `a`, the split of `a ++ sep ++ b` is `a` followed by
the split of `b`. -/
theorem pySplit_append_first (s0 : Char) (ss : List Char) :
    ∀ a b, (∀ c ∈ a, c ≠ s0) →
      pySplit s0 ss (a ++ (s0 :: ss) ++ b) = a :: pySplit s0 ss b := by
  intro a
  induction a with
  | nil =>
    intro b _
    simp only [List.nil_append, List.cons_append]
    rw [pySplit_cons, if_pos]
    · rw [List.drop_left' (rfl : ss.length = ss.length)]
    · exact List.isPrefixOf_iff_prefix.mpr (by exact ⟨b, by simp⟩)
  | cons c a2 ih =>
    intro b ha
    have hc : c ≠ s0 := ha c (List.mem_cons_self c a2)
    simp only [List.cons_append]
    rw [pySplit_cons, if_neg]
    · rw [ih b (fun x hx => ha x (List.mem_cons_of_mem c hx))]
    · simp only [List.isPrefixOf_cons₂, Bool.and_eq_true, beq_iff_eq]
      intro hcontra
      exact hc hcontra.1.symm

/-- The number of parts produced by a single-character split is the number of
occurrences of the character plus one. -/
theorem pySplit_single_length (c0 : Char) :
    ∀ l : List Char, (pySplit c0 [] l).length = l.count c0 + 1 := by
  intro l
  induction l with
  | nil => rfl
  | cons c rest ih =>
    rw [pySplit_cons]
    by_cases hc : c0 = c
    · rw [if_pos (by simp [hc])]
      subst hc
      simp only [List.length_drop, List.drop_zero, List.length_cons, List.count_cons, ih]
      simp
      exact ih
    · rw [if_neg (by simp [List.isPrefixOf_cons₂]; intro h; exact absurd h hc)]
      cases h : pySplit c0 [] rest with
      | nil => exact absurd h (pySplit_ne_nil c0 [] rest)
      | cons part parts =>
        have := ih
        rw [h] at this
        simp only [List.length_cons] at this ⊢
        rw [List.count_cons]
        simp only [beq_iff_eq]
        rw [if_neg (fun hh => hc hh.symm)]
        omega

theorem isDigit_not_space {c : Char} (h : c.isDigit = true) : pyIsSpace c = false := by
  cases hps : pyIsSpace c with
  | false => rfl
  | true =>
    exfalso
    simp only [pyIsSpace, Bool.or_eq_true, decide_eq_true_eq] at hps
    rcases hps with ((((rfl | rfl) | rfl) | rfl) | rfl) | rfl <;> exact absurd h (by decide)

theorem pyDigitsGo_digits :
    ∀ (l : List Char) (acc : Nat), (∀ c ∈ l, c.isDigit) →
      pyDigitsGo acc l = some (l.foldl digitStep acc) := by
  intro l
  induction l with
  | nil => intro acc _; rfl
  | cons c rest ih =>
    intro acc h
    have hc : c.isDigit := h c (List.mem_cons_self c rest)
    cases rest with
    | nil => simp [pyDigitsGo, if_pos hc, digitStep]
    | cons c2 rest2 =>
      simp only [pyDigitsGo, if_pos hc, List.foldl_cons]
      exact ih (digitStep acc c) (fun x hx => h x (List.mem_cons_of_mem c hx))

/-- The embedding of `int` accepts a nonempty pure-digit string and returns its
decimal value. -/
theorem pyInt_digits (l : List Char) (hne : l ≠ []) (h : ∀ c ∈ l, c.isDigit) :
    pyInt l = some (Int.ofNat (digitsVal l)) := by
  obtain ⟨d, tail, rfl⟩ := List.exists_cons_of_ne_nil hne
  have hd : d.isDigit := h d (List.mem_cons_self d tail)
  have hstrip1 : (d :: tail).dropWhile pyIsSpace = d :: tail := by
    rw [List.dropWhile_cons, if_neg (by simp [isDigit_not_space hd])]
  have hrevne : (d :: tail).reverse ≠ [] := by simp
  obtain ⟨e, tl2, hrev⟩ := List.exists_cons_of_ne_nil hrevne
  have he : e.isDigit := by
    have : e ∈ (d :: tail).reverse := by rw [hrev]; exact List.mem_cons_self e tl2
    exact h e (List.mem_reverse.mp this)
  have hstrip2 : (d :: tail).reverse.dropWhile pyIsSpace = (d :: tail).reverse := by
    rw [hrev, List.dropWhile_cons, if_neg (by simp [isDigit_not_space he])]
  have hplus : d ≠ '+' := fun hh => by rw [hh] at hd; exact absurd hd (by decide)
  have hminus : d ≠ '-' := fun hh => by rw [hh] at hd; exact absurd hd (by decide)
  simp only [pyInt, hstrip1, hstrip2, List.reverse_reverse]
  rw [if_neg hplus, if_neg hminus]
  simp only [pyDigits, if_pos hd]
  rw [pyDigitsGo_digits tail (d.toNat - 48) (fun x hx => h x (List.mem_cons_of_mem d hx))]
  simp [digitsVal, digitStep]

theorem hasOcc_single_of_not_mem {c0 : Char} :
    ∀ {l : List Char}, c0 ∉ l → hasOcc [c0] l = false := by
  intro l
  induction l with
  | nil => intro _; rfl
  | cons c rest ih =>
    intro h
    simp only [List.mem_cons, not_or] at h
    simp only [hasOcc, List.isPrefixOf_cons₂, List.isPrefixOf_nil_left, Bool.and_true,
      Bool.or_eq_false_iff]
    exact ⟨by simp [h.1], ih h.2⟩

theorem isDigit_ne_space {c : Char} (h : c.isDigit = true) : c ≠ ' ' := by
  intro hc; rw [hc] at h; exact absurd h (by decide)

theorem isDigit_ne_colon {c : Char} (h : c.isDigit = true) : c ≠ ':' := by
  intro hc; rw [hc] at h; exact absurd h (by decide)

theorem not_mem_of_all_ne {c0 : Char} {l : List Char} (h : ∀ c ∈ l, c ≠ c0) : c0 ∉ l :=
  fun hm => h c0 hm rfl

example : kubectl_output_extract_forwarded_port "Forwarding from 127.0.0.1:34805 -> 8888" =
    .ok (some 34805) := by decide

example : kubectl_output_extract_forwarded_port "Else" = .ok none := by decide

example : find_jupyter_details_in_logs
    "[I 2023-03-29 08:57:24.938 ServerApp] http://localhost:8970/?token=0ae67ae0f222ac82b321b33cb94b6f843725376b16b36975"
    = .ok (some ⟨8970, "0ae67ae0f222ac82b321b33cb94b6f843725376b16b36975".data⟩) := by
  decide

example : find_jupyter_details_in_logs
    "    To access the server, open this file in a browser:" = .ok none := by decide

example : find_jupyter_details_in_logs "https://x.org/?token=t" =
    .ok (some ⟨443, "t".data⟩) := by decide

example : find_jupyter_details_in_logs "http://x.org/?a=b&token=t&token=u" =
    .ok (some ⟨80, "t".data⟩) := by decide

example : find_jupyter_details_in_logs "http://x:99999/?token=t" =
    .error (.valueError "Port out of range 0-65535") := by decide

/-- Claim C10, counterexample.  The line
`Forwarding from 127.0.0.1:34805 -> 8888 -> 9999` has the claimed shape
`"Forwarding " + host + ":" + digits + " -> " + rest` with exactly one `':'`
byte in the whole line and a numeric port field, so the claim says the parser
returns the digits `34805` as the local port; the code instead raises a
`ValueError`, because the part after the colon splits on `" -> "` into three
pieces, not two. -/
theorem C10_forwarded_port_counterexample :
    "Forwarding from 127.0.0.1:34805 -> 8888 -> 9999".data =
      "Forwarding ".data ++ "from 127.0.0.1".data ++ [':'] ++ "34805".data ++
        " -> ".data ++ "8888 -> 9999".data
    ∧ "Forwarding from 127.0.0.1:34805 -> 8888 -> 9999".data.count ':' = 1
    ∧ "34805".data.all Char.isDigit = true
    ∧ kubectl_output_extract_forwarded_port
        "Forwarding from 127.0.0.1:34805 -> 8888 -> 9999"
        = .error (.valueError "values to unpack") := by decide

/-- Claim C10 (amended): the forwarded-port line parser returns no match for
every byte string not beginning with `Forwarding`; for byte strings of the form
`"Forwarding " + host + ":" + digits + " -> " + rest` with exactly one `':'`
byte in the whole line and no further `" -> "` occurrence after the colon, it
returns the digits as the local port; and a byte string beginning with
`Forwarding` that deviates from that shape (a `':'` count different from one,
a missing `" -> "` separator after the single colon, or a non-numeric port
field before the `" -> "` separator) raises a `ValueError` instead of
returning no match. -/
theorem C10_forwarded_port_amended :
    (∀ line : String, "Forwarding".data.isPrefixOf line.data = false →
        kubectl_output_extract_forwarded_port line = .ok none)
    ∧ (∀ host digits rest : List Char,
        ':' ∉ host → digits ≠ [] → digits.all Char.isDigit = true →
        ':' ∉ rest → hasOcc " -> ".data rest = false →
        kubectl_output_extract_forwarded_port
          (String.mk ("Forwarding ".data ++ host ++ [':'] ++ digits ++ " -> ".data ++ rest))
          = .ok (some (Int.ofNat (digitsVal digits))))
    ∧ (∀ line : String, "Forwarding".data.isPrefixOf line.data = true →
        line.data.count ':' ≠ 1 →
        kubectl_output_extract_forwarded_port line = .error (.valueError "values to unpack"))
    ∧ (∀ a b : List Char, ':' ∉ a → ':' ∉ b → hasOcc " -> ".data b = false →
        "Forwarding".data.isPrefixOf (a ++ ':' :: b) = true →
        kubectl_output_extract_forwarded_port (String.mk (a ++ ':' :: b))
          = .error (.valueError "values to unpack"))
    ∧ (∀ a src b : List Char, ':' ∉ a → ':' ∉ src → ':' ∉ b →
        (∀ c ∈ src, c ≠ ' ') → hasOcc " -> ".data b = false → pyInt src = none →
        "Forwarding".data.isPrefixOf (a ++ [':'] ++ src ++ " -> ".data ++ b) = true →
        kubectl_output_extract_forwarded_port
          (String.mk (a ++ [':'] ++ src ++ " -> ".data ++ b))
          = .error (.valueError "invalid literal for int with base 10")) := by
  have harr4 : " -> ".data = ' ' :: ['-', '>', ' '] := by decide
  have hfwdC : ∀ c ∈ "Forwarding ".data, c ≠ ':' := by decide
  have harrC : (':' : Char) ∉ " -> ".data := by decide
  refine ⟨?_, ?_, ?_, ?_, ?_⟩
  · intro line h
    unfold kubectl_output_extract_forwarded_port
    rw [if_pos (by simp [h])]
  · intro host digits rest hhost hdne hdig hrest harr
    have hdigP : ∀ c ∈ digits, c.isDigit = true := fun c hc => List.all_eq_true.mp hdig c hc
    have hdata : (String.mk ("Forwarding ".data ++ host ++ [':'] ++ digits ++
        " -> ".data ++ rest)).data =
        "Forwarding ".data ++ host ++ [':'] ++ digits ++ " -> ".data ++ rest := rfl
    have hpref : "Forwarding".data.isPrefixOf
        ("Forwarding ".data ++ host ++ [':'] ++ digits ++ " -> ".data ++ rest) = true := by
      apply List.isPrefixOf_iff_prefix.mpr
      refine ⟨' ' :: (host ++ [':'] ++ digits ++ " -> ".data ++ rest), ?_⟩
      have hfwd : "Forwarding ".data = "Forwarding".data ++ [' '] := by decide
      rw [hfwd]; simp
    have hBnocolon : (':' : Char) ∉ digits ++ " -> ".data ++ rest := by
      intro hmem
      rcases List.mem_append.mp hmem with h1 | h2
      · rcases List.mem_append.mp h1 with h3 | h4
        · exact isDigit_ne_colon (hdigP ':' h3) rfl
        · exact harrC h4
      · exact hrest h2
    have hsplit1 : pySplit ':' [] ("Forwarding ".data ++ host ++ [':'] ++ digits ++
        " -> ".data ++ rest) =
        ["Forwarding ".data ++ host, digits ++ " -> ".data ++ rest] := by
      have e1 : "Forwarding ".data ++ host ++ [':'] ++ digits ++ " -> ".data ++ rest =
          ("Forwarding ".data ++ host) ++ (':' :: []) ++ (digits ++ " -> ".data ++ rest) := by
        simp
      rw [e1, pySplit_append_first ':' [] ("Forwarding ".data ++ host)
        (digits ++ " -> ".data ++ rest) ?hA]
      · rw [pySplit_no_occ ':' [] _ (hasOcc_single_of_not_mem hBnocolon)]
      case hA =>
        intro c hc
        rcases List.mem_append.mp hc with h1 | h2
        · exact hfwdC c h1
        · exact fun hceq => hhost (hceq ▸ h2)
    have hsplit2 : pySplit ' ' ['-', '>', ' '] (digits ++ " -> ".data ++ rest) =
        [digits, rest] := by
      have e2 : digits ++ " -> ".data ++ rest =
          digits ++ (' ' :: ['-', '>', ' ']) ++ rest := by rw [harr4]
      rw [e2, pySplit_append_first ' ' ['-', '>', ' '] digits rest
        (fun c hc => isDigit_ne_space (hdigP c hc))]
      rw [pySplit_no_occ ' ' ['-', '>', ' '] rest (by rw [← harr4]; exact harr)]
    unfold kubectl_output_extract_forwarded_port
    rw [if_neg (not_not_intro (by rw [hdata]; exact hpref))]
    rw [hdata, hsplit1]
    simp only [unpack2]
    rw [hsplit2]
    simp only [unpack2, pyIntExc, pyInt_digits digits hdne hdigP]
  · intro line hpref hcount
    have hlen : (pySplit ':' [] line.data).length ≠ 2 := by
      rw [pySplit_single_length]; omega
    unfold kubectl_output_extract_forwarded_port
    rw [if_neg (not_not_intro hpref)]
    cases hsp : pySplit ':' [] line.data with
    | nil => exact absurd hsp (pySplit_ne_nil ':' [] line.data)
    | cons x xs =>
      cases xs with
      | nil => simp [unpack2]
      | cons y ys =>
        cases ys with
        | nil => rw [hsp] at hlen; simp at hlen
        | cons z zs => simp [unpack2]
  · intro a b ha hb harrB hpref
    have hdata : (String.mk (a ++ ':' :: b)).data = a ++ ':' :: b := rfl
    have hsplit1 : pySplit ':' [] (a ++ ':' :: b) = [a, b] := by
      have e1 : a ++ ':' :: b = a ++ (':' :: []) ++ b := by simp
      rw [e1, pySplit_append_first ':' [] a b (fun c hc hceq => ha (hceq ▸ hc))]
      rw [pySplit_no_occ ':' [] b (hasOcc_single_of_not_mem hb)]
    have hsplitB : pySplit ' ' ['-', '>', ' '] b = [b] := by
      rw [pySplit_no_occ ' ' ['-', '>', ' '] b (by rw [← harr4]; exact harrB)]
    unfold kubectl_output_extract_forwarded_port
    rw [if_neg (not_not_intro (by rw [hdata]; exact hpref))]
    rw [hdata, hsplit1]
    simp only [unpack2]
    rw [hsplitB]
  · intro a src b ha hsrc hb hnospace harrB hbadint hpref
    have hdata : (String.mk (a ++ [':'] ++ src ++ " -> ".data ++ b)).data =
        a ++ [':'] ++ src ++ " -> ".data ++ b := rfl
    have hB : src ++ " -> ".data ++ b = src ++ (' ' :: ['-', '>', ' ']) ++ b := by rw [harr4]
    have hBnocolon : (':' : Char) ∉ src ++ " -> ".data ++ b := by
      intro hmem
      rcases List.mem_append.mp hmem with h1 | h2
      · rcases List.mem_append.mp h1 with h3 | h4
        · exact hsrc h3
        · exact harrC h4
      · exact hb h2
    have hsplit1 : pySplit ':' [] (a ++ [':'] ++ src ++ " -> ".data ++ b) =
        [a, src ++ " -> ".data ++ b] := by
      have e1 : a ++ [':'] ++ src ++ " -> ".data ++ b =
          a ++ (':' :: []) ++ (src ++ " -> ".data ++ b) := by simp
      rw [e1, pySplit_append_first ':' [] a (src ++ " -> ".data ++ b)
        (fun c hc hceq => ha (hceq ▸ hc))]
      rw [pySplit_no_occ ':' [] _ (hasOcc_single_of_not_mem hBnocolon)]
    have hsplit2 : pySplit ' ' ['-', '>', ' '] (src ++ " -> ".data ++ b) = [src, b] := by
      rw [hB, pySplit_append_first ' ' ['-', '>', ' '] src b hnospace]
      rw [pySplit_no_occ ' ' ['-', '>', ' '] b (by rw [← harr4]; exact harrB)]
    unfold kubectl_output_extract_forwarded_port
    rw [if_neg (not_not_intro (by rw [hdata]; exact hpref))]
    rw [hdata, hsplit1]
    simp only [unpack2]
    rw [hsplit2]
    simp only [unpack2, pyIntExc, hbadint]

/-- Witness for `C10_forwarded_port_amended`, exercising the positive shape on
the concrete line `Forwarding from 127.0.0.1:34805 -> 8888`. -/
theorem C10_forwarded_port_amended_witness :
    ((':' : Char) ∉ "from 127.0.0.1".data ∧ "34805".data ≠ [] ∧
      "34805".data.all Char.isDigit = true ∧ (':' : Char) ∉ "8888".data ∧
      hasOcc " -> ".data "8888".data = false)
    ∧ kubectl_output_extract_forwarded_port
        (String.mk ("Forwarding ".data ++ "from 127.0.0.1".data ++ [':'] ++
          "34805".data ++ " -> ".data ++ "8888".data))
        = .ok (some (Int.ofNat (digitsVal "34805".data))) :=
  ⟨⟨by decide, by decide, by decide, by decide, by decide⟩,
    C10_forwarded_port_amended.2.1 "from 127.0.0.1".data "34805".data "8888".data
      (by decide) (by decide) (by decide) (by decide) (by decide)⟩

theorem httpData : "http".data = ['h', 't', 't', 'p'] := rfl

theorem findallHttpF_fuel :
    ∀ fuel fuel2 l, l.length ≤ fuel → l.length ≤ fuel2 →
      findallHttpF fuel l = findallHttpF fuel2 l := by
  intro fuel
  induction fuel with
  | zero =>
    intro fuel2 l hl _
    match l with
    | [] => cases fuel2 <;> rfl
    | c :: rest => simp at hl
  | succ fuel ih =>
    intro fuel2 l hl hl2
    match l with
    | [] => cases fuel2 <;> rfl
    | c :: rest =>
      match fuel2 with
      | 0 => simp at hl2
      | fuel2 + 1 =>
        simp only [List.length_cons, Nat.succ_le_succ_iff] at hl hl2
        simp only [findallHttpF]
        have h1 : ((c :: rest).drop
            (4 + (((c :: rest).drop 4).takeWhile (fun x => !pyIsSpace x)).length)).length
            ≤ fuel := by
          simp only [List.length_drop, List.length_cons]; omega
        have h2 : ((c :: rest).drop
            (4 + (((c :: rest).drop 4).takeWhile (fun x => !pyIsSpace x)).length)).length
            ≤ fuel2 := by
          simp only [List.length_drop, List.length_cons]; omega
        rw [ih fuel2 _ h1 h2, ih fuel2 rest hl hl2]

/-- Unfolding lemma for `findallHttp` on a nonempty list, hiding the fuel. -/
theorem findallHttp_cons (c : Char) (rest : List Char) :
    findallHttp (c :: rest) =
      if httpMatchAt (c :: rest) then
        ("http".data ++ ((c :: rest).drop 4).takeWhile (fun x => !pyIsSpace x)) ::
          findallHttp ((c :: rest).drop
            (4 + (((c :: rest).drop 4).takeWhile (fun x => !pyIsSpace x)).length))
      else findallHttp rest := by
  show findallHttpF (rest.length + 1) (c :: rest) = _
  simp only [findallHttpF, findallHttp]
  by_cases h : httpMatchAt (c :: rest)
  · rw [if_pos h, if_pos h]
    rw [findallHttpF_fuel rest.length
      ((c :: rest).drop
        (4 + (((c :: rest).drop 4).takeWhile (fun x => !pyIsSpace x)).length)).length
      _ (by simp only [List.length_drop, List.length_cons]; omega) (le_refl _)]
  · rw [if_neg h, if_neg h]

theorem pyTokensF_fuel :
    ∀ fuel fuel2 l, l.length ≤ fuel → l.length ≤ fuel2 →
      pyTokensF fuel l = pyTokensF fuel2 l := by
  intro fuel
  induction fuel with
  | zero =>
    intro fuel2 l hl _
    match l with
    | [] => cases fuel2 <;> rfl
    | c :: rest => simp at hl
  | succ fuel ih =>
    intro fuel2 l hl hl2
    match l with
    | [] => cases fuel2 <;> rfl
    | c :: rest =>
      match fuel2 with
      | 0 => simp at hl2
      | fuel2 + 1 =>
        simp only [List.length_cons, Nat.succ_le_succ_iff] at hl hl2
        simp only [pyTokensF]
        have h1 : (rest.dropWhile (fun x => !pyIsSpace x)).length ≤ fuel := by
          have := (List.dropWhile_sublist (l := rest) (fun x => !pyIsSpace x)).length_le
          omega
        have h2 : (rest.dropWhile (fun x => !pyIsSpace x)).length ≤ fuel2 := by
          have := (List.dropWhile_sublist (l := rest) (fun x => !pyIsSpace x)).length_le
          omega
        rw [ih fuel2 _ h1 h2, ih fuel2 rest hl hl2]

/-- Unfolding lemma for `pyTokens` on a nonempty list, hiding the fuel. -/
theorem pyTokens_cons (c : Char) (rest : List Char) :
    pyTokens (c :: rest) =
      if pyIsSpace c then pyTokens rest
      else (c :: rest.takeWhile (fun x => !pyIsSpace x)) ::
        pyTokens (rest.dropWhile (fun x => !pyIsSpace x)) := by
  show pyTokensF (rest.length + 1) (c :: rest) = _
  simp only [pyTokensF, pyTokens]
  by_cases h : pyIsSpace c
  · rw [if_pos h, if_pos h]
  · rw [if_neg h, if_neg h]
    rw [pyTokensF_fuel rest.length (rest.dropWhile (fun x => !pyIsSpace x)).length
      (rest.dropWhile (fun x => !pyIsSpace x))
      (by have := (List.dropWhile_sublist (l := rest) (fun x => !pyIsSpace x)).length_le
          omega) (le_refl _)]

theorem drop_takeWhile_length (q : Char → Bool) :
    ∀ t : List Char, t.drop (t.takeWhile q).length = t.dropWhile q := by
  intro t
  induction t with
  | nil => rfl
  | cons a l ih =>
    rw [List.takeWhile_cons, List.dropWhile_cons]
    by_cases h : q a
    · simp only [if_pos h, List.length_cons, List.drop_succ_cons]
      exact ih
    · simp [if_neg h]

theorem drop_four_plus (t : List Char) (k : Nat) :
    ("http".data ++ t).drop (4 + k) = t.drop k := by
  rw [httpData]
  have h4 : 4 + k = (((k + 1) + 1) + 1) + 1 := by omega
  rw [h4]
  simp only [List.cons_append, List.nil_append, List.drop_succ_cons]

theorem httpMatchAt_of_space {c : Char} {rest : List Char} (h : pyIsSpace c = true) :
    httpMatchAt (c :: rest) = false := by
  cases hm : httpMatchAt (c :: rest) with
  | false => rfl
  | true =>
    exfalso
    have hp : "http".data.isPrefixOf (c :: rest) = true := by
      have := hm
      simp only [httpMatchAt, Bool.and_eq_true] at this
      exact this.1
    rw [httpData] at hp
    simp only [List.isPrefixOf_cons₂, Bool.and_eq_true, beq_iff_eq] at hp
    rcases hp with ⟨rfl, -⟩
    exact absurd h (by decide)

theorem tokenCandidate_nil : tokenCandidate [] = none := rfl

theorem tokenCandidate_single (c : Char) : tokenCandidate [c] = none := by
  have hp : "http".data.isPrefixOf [c] = false := by
    rw [httpData]
    cases hb : (['h', 't', 't', 'p'] : List Char).isPrefixOf [c] with
    | false => rfl
    | true =>
      exfalso
      simp only [List.isPrefixOf_cons₂, Bool.and_eq_true] at hb
      exact absurd hb.2 (by simp)
  simp [tokenCandidate, httpSuffix, hp]

/-- In a token whose head bears no regex match, prepending the head does not
change the candidate contributed by the token. -/
theorem tokenCandidate_cons_eq {c : Char} {rest : List Char}
    (hns : pyIsSpace c = false) (hnm : httpMatchAt (c :: rest) = false) :
    tokenCandidate (c :: rest.takeWhile (fun x => !pyIsSpace x)) =
      tokenCandidate (rest.takeWhile (fun x => !pyIsSpace x)) := by
  by_cases hp : "http".data.isPrefixOf (c :: rest.takeWhile (fun x => !pyIsSpace x)) = true
  case neg =>
    simp only [tokenCandidate, httpSuffix]
    rw [if_neg hp]
  case pos =>
    obtain ⟨u, hu⟩ := List.isPrefixOf_iff_prefix.mp hp
    cases u with
    | cons v vs =>
      exfalso
      have htwp : (c :: rest.takeWhile (fun x => !pyIsSpace x)) <+: (c :: rest) :=
        ⟨rest.dropWhile (fun x => !pyIsSpace x), by
          simp [List.takeWhile_append_dropWhile]⟩
      have hfull : ("http".data ++ v :: vs) <+: (c :: rest) := by
        rw [hu]; exact htwp
      obtain ⟨w, hw⟩ := hfull
      have hv : pyIsSpace v = false := by
        have hvmem : v ∈ c :: rest.takeWhile (fun x => !pyIsSpace x) := by
          rw [← hu]
          exact List.mem_append.mpr (Or.inr (List.mem_cons_self v vs))
        rcases List.mem_cons.mp hvmem with rfl | hvtw
        · exact hns
        · have := List.mem_takeWhile_imp hvtw
          simpa using this
      have hmt : httpMatchAt (c :: rest) = true := by
        rw [← hw]
        simp only [httpMatchAt, Bool.and_eq_true]
        constructor
        · exact List.isPrefixOf_iff_prefix.mpr ⟨v :: vs ++ w, by simp⟩
        · have hd : (("http".data ++ v :: vs) ++ w).drop 4 = v :: (vs ++ w) := by
            rw [List.append_assoc]
            have h0 := drop_four_plus (v :: vs ++ w) 0
            simp only [List.drop_zero] at h0
            simp [h0]
          rw [hd, List.takeWhile_cons, if_pos (by simp [hv])]
          simp
      rw [hmt] at hnm
      exact absurd hnm (by simp)
    | nil =>
      have htok : c :: rest.takeWhile (fun x => !pyIsSpace x) = "http".data := by
        simpa using hu.symm
      have htw : rest.takeWhile (fun x => !pyIsSpace x) = ['t', 't', 'p'] := by
        rw [httpData] at htok
        injection htok with h1 h2
      rw [htok, htw]
      decide

theorem httpSuffix_of_prefix {l : List Char} (h : "http".data.isPrefixOf l = true) :
    httpSuffix l = some l := by
  cases l with
  | nil =>
    rw [httpData] at h
    simp [List.isPrefixOf] at h
  | cons z zs =>
    show (if "http".data.isPrefixOf (z :: zs) = true then some (z :: zs)
      else httpSuffix zs) = some (z :: zs)
    rw [if_pos h]

/-- Splitting off the first token of a list agrees with `filterMap` over its
tokens (regardless of whether the list starts with whitespace). -/
theorem filterMap_tokens_head (rest : List Char) :
    (pyTokens rest).filterMap tokenCandidate =
      match tokenCandidate (rest.takeWhile (fun x => !pyIsSpace x)) with
      | none => (pyTokens (rest.dropWhile (fun x => !pyIsSpace x))).filterMap tokenCandidate
      | some b => b :: (pyTokens (rest.dropWhile (fun x => !pyIsSpace x))).filterMap tokenCandidate := by
  cases rest with
  | nil => rfl
  | cons r rs =>
    by_cases hr : pyIsSpace r
    · rw [List.takeWhile_cons, List.dropWhile_cons, if_neg (by simp [hr]), if_neg (by simp [hr])]
      rfl
    · rw [List.takeWhile_cons, List.dropWhile_cons, if_pos (by simp [hr]), if_pos (by simp [hr])]
      rw [pyTokens_cons, if_neg hr, List.filterMap_cons]
      cases tokenCandidate (r :: rs.takeWhile (fun x => !pyIsSpace x)) <;> rfl

/-- The matches of the regex `http\S+` are, token by token, the suffix of each
whitespace-delimited token from its first occurrence of `http` (when at least
one character follows that occurrence). -/
theorem findallHttp_eq_tokens :
    ∀ (n : Nat) (l : List Char), l.length ≤ n →
      findallHttp l = (pyTokens l).filterMap tokenCandidate := by
  intro n
  induction n with
  | zero =>
    intro l hl
    have hnil : l = [] := List.length_eq_zero.mp (Nat.le_zero.mp hl)
    subst hnil; rfl
  | succ n ih =>
    intro l hl
    match l with
    | [] => rfl
    | c :: rest =>
      simp only [List.length_cons, Nat.succ_le_succ_iff] at hl
      by_cases hsp : pyIsSpace c
      · rw [findallHttp_cons, if_neg (by simp [httpMatchAt_of_space hsp]),
          pyTokens_cons, if_pos hsp]
        exact ih rest hl
      · have hns : pyIsSpace c = false := by simpa using hsp
        by_cases hm : httpMatchAt (c :: rest) = true
        · -- a regex match at the head of the token
          have hm2 := hm
          simp only [httpMatchAt, Bool.and_eq_true] at hm2
          obtain ⟨hp, hrun⟩ := hm2
          obtain ⟨t, ht⟩ := List.isPrefixOf_iff_prefix.mp hp
          have hdrop4 : (c :: rest).drop 4 = t := by
            rw [← ht]
            have h0 := drop_four_plus t 0
            simp only [List.drop_zero] at h0
            have h40 : (4 : Nat) = 4 + 0 := rfl
            rw [h40, drop_four_plus t 0]
            simp
          have hct : c :: rest = 'h' :: 't' :: 't' :: 'p' :: t := by
            rw [← ht]; rfl
          have hc : c = 'h' := by injection hct
          have hrest : rest = 't' :: 't' :: 'p' :: t := by injection hct with h1 h2
          rw [findallHttp_cons, if_pos hm, hdrop4]
          -- compute the token on the right
          rw [pyTokens_cons, if_neg hsp]
          have htw : rest.takeWhile (fun x => !pyIsSpace x) =
              't' :: 't' :: 'p' :: t.takeWhile (fun x => !pyIsSpace x) := by
            rw [hrest]
            rw [List.takeWhile_cons, if_pos (by decide), List.takeWhile_cons,
              if_pos (by decide), List.takeWhile_cons, if_pos (by decide)]
          have hdw : rest.dropWhile (fun x => !pyIsSpace x) =
              t.dropWhile (fun x => !pyIsSpace x) := by
            rw [hrest]
            rw [List.dropWhile_cons, if_pos (by decide), List.dropWhile_cons,
              if_pos (by decide), List.dropWhile_cons, if_pos (by decide)]
          rw [htw, hdw, hc]
          -- the token is http ++ run, and it is its own candidate
          have htok : ('h' :: 't' :: 't' :: 'p' :: t.takeWhile (fun x => !pyIsSpace x)) =
              "http".data ++ t.takeWhile (fun x => !pyIsSpace x) := by
            rw [httpData]; rfl
          have hrunne : t.takeWhile (fun x => !pyIsSpace x) ≠ [] := by
            intro he
            rw [hdrop4, he] at hrun
            simp at hrun
          have hcand : tokenCandidate ("http".data ++ t.takeWhile (fun x => !pyIsSpace x)) =
              some ("http".data ++ t.takeWhile (fun x => !pyIsSpace x)) := by
            have hpre : "http".data.isPrefixOf
                ("http".data ++ t.takeWhile (fun x => !pyIsSpace x)) = true :=
              List.isPrefixOf_iff_prefix.mpr ⟨_, rfl⟩
            obtain ⟨v, vs, hvvs⟩ := List.exists_cons_of_ne_nil hrunne
            simp only [tokenCandidate, httpSuffix_of_prefix hpre]
            rw [if_pos (by
              have h4 : ("http".data).length = 4 := rfl
              rw [List.length_append, h4, hvvs, List.length_cons]
              omega)]
          rw [htok, List.filterMap_cons, hcand]
          -- recurse on the remainder after the match
          have hlen : (t.dropWhile (fun x => !pyIsSpace x)).length ≤ n := by
            have h1 := (List.dropWhile_sublist (l := t) (fun x => !pyIsSpace x)).length_le
            have h2 : rest.length = 3 + t.length := by rw [hrest]; simp; omega
            omega
          have hdroplen : List.drop (4 + (t.takeWhile (fun x => !pyIsSpace x)).length)
              ('h' :: rest) = t.dropWhile (fun x => !pyIsSpace x) := by
            rw [← hc, ← ht, ← httpData, drop_four_plus, drop_takeWhile_length]
          rw [hdroplen]
          rw [ih (t.dropWhile (fun x => !pyIsSpace x)) hlen]
        · -- no match at the head: the head character is dropped on both sides
          have hmf : httpMatchAt (c :: rest) = false := by simpa using hm
          rw [findallHttp_cons, if_neg (by simp [hmf]), pyTokens_cons, if_neg hsp,
            List.filterMap_cons, tokenCandidate_cons_eq hns hmf]
          rw [ih rest hl, filterMap_tokens_head rest]
          cases tokenCandidate (rest.takeWhile (fun x => !pyIsSpace x)) <;> rfl

/-- Claim C5, counterexample.  In the log text
`see:http://localhost:8970/?token=abc` no whitespace-delimited token begins
with `http` (the only token begins with `see:`), so by the claim the scraper
returns no match; the code instead scrapes the embedded URL (the regex
`http\S+` matches inside the token) and returns port 8970 with token `abc`. -/
theorem C5_jupyter_scraper_counterexample :
    find_jupyter_details_in_logs "see:http://localhost:8970/?token=abc"
      = .ok (some ⟨8970, "abc".data⟩)
    ∧ (pyTokens "see:http://localhost:8970/?token=abc".data).filter
        (fun t => "http".data.isPrefixOf t) = []
    ∧ claimTokenScraper "see:http://localhost:8970/?token=abc" = .ok none := by
  refine ⟨by decide, by decide, by decide⟩

/-- Claim C5 (amended): for every log text, the notebook-endpoint scraper
considers, within each whitespace-delimited token, the substring starting at
the first occurrence of `http` and extending to the end of the token (provided
at least one character follows that occurrence), in token order; it returns the
endpoint of the first such candidate that parses as a URL with a non-empty
`token` query parameter (token = that parameter's value; port = the URL's
explicit port, defaulting to 80 when the scheme is `http` and to 443
otherwise), and returns no match when no such candidate exists. -/
theorem C5_jupyter_scraper_amended (line : String) :
    find_jupyter_details_in_logs line = amendedTokenScraper line := by
  unfold find_jupyter_details_in_logs amendedTokenScraper
  rw [findallHttp_eq_tokens line.data.length line.data (le_refl _)]

example :
    interactive_context
      { runaiHelp := .ran 0, submitRc := 0,
        describes := [.ran 0 (.payload "j" "j-0-0" "Pending"),
          .ran 0 (.payload "j" "j-0-0" "ContainerCreating"),
          .ran 0 (.payload "j" "j-0-0" "ContainerCreating"),
          .ran 0 (.payload "j" "j-0-0" "Running")],
        kubectlLines := [], logsFetch := fun _ => .ran 1 "",
        activeExit := some .keyboardInterrupt, interruptDuringCleanup := false }
      { job_name := "j", image := "img", args := [], mode := .shell,
        container_port := none }
      = ([.checkCmd true, .submit 0, .describe, .sleep 5, .describe, .printCreating,
          .sleep 5, .describe, .sleep 5, .describe, .deleteJob], .exit 130) := by
  decide

example :
    interactive_context
      { runaiHelp := .ran 0, submitRc := 0,
        describes := [.ran 0 (.payload "j" "j-0-0" "Running")],
        kubectlLines := ["Forwarding from 127.0.0.1:34805 -> 8888"],
        logsFetch := fun _ => .ran 1 "",
        activeExit := some (.typerExit 1), interruptDuringCleanup := false }
      { job_name := "j", image := "img", args := [], mode := .port,
        container_port := some 8888 }
      = ([.checkCmd true, .submit 0, .describe, .forwardSpawn, .forwardBind 34805,
          .terminateForward, .deleteJob], .exit 1) := by
  decide

/-- The poll loop only queries, notifies and sleeps: its trace holds no other
event (in particular no delete, submit, or forward event). -/
theorem wait_events_shape (name : String) :
    ∀ (rs : List DescribeResult) (notified : Bool) (e : Ev),
      e ∈ (wait_until_job_started name notified rs).1 →
      e = Ev.describe ∨ e = Ev.printCreating ∨ e = Ev.sleep 5 := by
  intro rs
  induction rs with
  | nil =>
    intro notified e he
    simp [wait_until_job_started] at he
  | cons r rest ih =>
    intro notified e he
    simp only [wait_until_job_started] at he
    cases hg : get_runai_job_status name r with
    | error ex =>
      rw [hg] at he
      dsimp only at he
      simp only [List.mem_singleton] at he
      exact Or.inl he
    | ok job =>
      rw [hg] at he
      dsimp only at he
      by_cases h1 : job.status = RunAIJobStatus.RUNNING
      · rw [if_pos h1] at he
        simp only [List.mem_singleton] at he
        exact Or.inl he
      · rw [if_neg h1] at he
        by_cases h2 : job.status = RunAIJobStatus.DOES_NOT_EXISTS
        · rw [if_pos h2] at he
          simp only [List.mem_singleton] at he
          exact Or.inl he
        · rw [if_neg h2] at he
          by_cases h3 : job.status = RunAIJobStatus.IMAGEPULLBACKOFF
          · rw [if_pos h3] at he
            simp only [List.mem_singleton] at he
            exact Or.inl he
          · rw [if_neg h3] at he
            simp only [List.mem_cons, List.mem_append] at he
            rcases he with rfl | he
            · exact Or.inl rfl
            rcases he with hif | he
            · by_cases h4 : (job.status == RunAIJobStatus.CONTAINERCREATING && !notified) = true
              · rw [if_pos h4] at hif
                simp only [List.mem_singleton] at hif
                exact Or.inr (Or.inl hif)
              · rw [if_neg h4] at hif
                simp at hif
            · rcases he with rfl | he
              · exact Or.inr (Or.inr rfl)
              · exact ih _ e he

/-- Each attempt of the jupyter extraction emits exactly one log fetch. -/
theorem extractAttempt_events (logs : Nat → LogsResult) (i : Nat) :
    (extractAttempt logs i).1 = [Ev.logsFetch] := by
  unfold extractAttempt
  cases logs i with
  | notFound => rfl
  | ran rc out =>
    dsimp only
    by_cases h : (rc != 0) = true
    · rw [if_pos h]
    · rw [if_neg h]
      cases find_jupyter_details_in_logs out with
      | error e => rfl
      | ok d => cases d <;> rfl

/-- The retry loop of the jupyter extraction only fetches logs and sleeps. -/
theorem retry_events_shape (logs : Nat → LogsResult) :
    ∀ (t i : Nat) (e : Ev),
      e ∈ (retryGo (extractAttempt logs) 10 i t).1 →
      e = Ev.logsFetch ∨ e = Ev.sleep 10 := by
  intro t
  induction t with
  | zero =>
    intro i e he
    simp only [retryGo, extractAttempt_events, List.mem_singleton] at he
    exact Or.inl he
  | succ t ih =>
    intro i e he
    simp only [retryGo] at he
    rcases hf : extractAttempt logs i with ⟨evs, r⟩
    have hevs : evs = [Ev.logsFetch] := by
      have := extractAttempt_events logs i
      rw [hf] at this
      exact this
    rw [hf] at he
    cases r with
    | ok a =>
      simp only at he
      rw [hevs] at he
      simp only [List.mem_singleton] at he
      exact Or.inl he
    | error ex =>
      simp only at he
      by_cases hc : retryCaught ex = true
      · rw [if_pos hc] at he
        by_cases ht : t = 0
        · rw [if_pos ht] at he
          rw [hevs] at he
          simp only [List.mem_singleton] at he
          exact Or.inl he
        · rw [if_neg ht] at he
          simp only [List.mem_append, List.mem_cons] at he
          rcases he with he | he
          · rw [hevs] at he
            simp only [List.mem_singleton] at he
            exact Or.inl he
          rcases he with rfl | he
          · exact Or.inr rfl
          · exact ih (i + 1) e he
      · rw [if_neg hc] at he
        rw [hevs] at he
        simp only [List.mem_singleton] at he
        exact Or.inl he

/-- The port-forward scan emits only bind events. -/
theorem forwardScan_events_shape :
    ∀ (lines : List String) (e : Ev), e ∈ (forwardScan lines).1 →
      ∃ q, e = Ev.forwardBind q := by
  intro lines
  induction lines with
  | nil => intro e he; simp [forwardScan] at he
  | cons line rest ih =>
    intro e he
    simp only [forwardScan] at he
    cases hk : kubectl_output_extract_forwarded_port line with
    | error ex =>
      rw [hk] at he
      simp at he
    | ok o =>
      rw [hk] at he
      cases o with
      | none =>
        dsimp only at he
        exact ih e he
      | some q =>
        dsimp only at he
        simp only [List.mem_singleton] at he
        exact ⟨q, he⟩

/-- A bind event in the scan trace means the scan succeeded. -/
theorem forwardScan_bind_ok :
    ∀ (lines : List String) (q : Int), Ev.forwardBind q ∈ (forwardScan lines).1 →
      ∃ v, (forwardScan lines).2 = .ok v := by
  intro lines
  induction lines with
  | nil => intro q hq; simp [forwardScan] at hq
  | cons line rest ih =>
    intro q hq
    simp only [forwardScan] at hq ⊢
    cases hk : kubectl_output_extract_forwarded_port line with
    | error ex =>
      rw [hk] at hq
      simp at hq
    | ok o =>
      rw [hk] at hq
      cases o with
      | none =>
        dsimp only at hq ⊢
        exact ih q hq
      | some v => exact ⟨v, rfl⟩

/-- The submit phase only emits the submit command and poll events. -/
theorem submit_events_shape (j : RunAIInteractiveJob) (env : Env) (e : Ev)
    (he : e ∈ (j.submit env).1) :
    (∃ rc, e = Ev.submit rc) ∨ e = Ev.describe ∨ e = Ev.printCreating ∨ e = Ev.sleep 5 := by
  unfold RunAIInteractiveJob.submit at he
  by_cases h : (env.submitRc != 0) = true
  · rw [if_pos h] at he
    simp only [List.mem_singleton] at he
    exact Or.inl ⟨env.submitRc, he⟩
  · rw [if_neg h] at he
    dsimp only at he
    rcases List.mem_cons.mp he with rfl | he
    · exact Or.inl ⟨0, rfl⟩
    · exact Or.inr (wait_events_shape j.job_name env.describes false e he)

/-- The port-mode handler only emits the spawn and bind events. -/
theorem port_events_shape (env : Env) (stack : List Cleanup) (cp : Int) (e : Ev)
    (he : e ∈ (_handle_port_context env stack cp).1) :
    e = Ev.forwardSpawn ∨ ∃ q, e = Ev.forwardBind q := by
  unfold _handle_port_context at he
  rcases hf : forwardScan env.kubectlLines with ⟨fevs, fr⟩
  rw [hf] at he
  have hfevs : fevs = (forwardScan env.kubectlLines).1 := by rw [hf]
  cases fr with
  | error t =>
    dsimp only at he
    rcases List.mem_cons.mp he with rfl | he
    · exact Or.inl rfl
    · exact Or.inr (forwardScan_events_shape env.kubectlLines e (hfevs ▸ he))
  | ok v =>
    dsimp only at he
    rcases List.mem_cons.mp he with rfl | he
    · exact Or.inl rfl
    · exact Or.inr (forwardScan_events_shape env.kubectlLines e (hfevs ▸ he))

/-- The jupyter-mode handler only emits log fetches, retry sleeps, and the
port events. -/
theorem jupyter_events_shape (env : Env) (stack : List Cleanup) (e : Ev)
    (he : e ∈ (_handle_jupyter_context env stack).1) :
    e = Ev.logsFetch ∨ e = Ev.sleep 10 ∨ e = Ev.forwardSpawn ∨ ∃ q, e = Ev.forwardBind q := by
  unfold _handle_jupyter_context at he
  rcases hx : extract_jupyter_details_from_job env.logsFetch with ⟨xevs, xr⟩
  rw [hx] at he
  have hxevs : xevs = (extract_jupyter_details_from_job env.logsFetch).1 := by rw [hx]
  cases xr with
  | error ex =>
    dsimp only at he
    rcases retry_events_shape env.logsFetch 20 0 e (hxevs ▸ he) with h | h
    · exact Or.inl h
    · exact Or.inr (Or.inl h)
  | ok d =>
    dsimp only at he
    rcases List.mem_append.mp he with he | he
    · rcases retry_events_shape env.logsFetch 20 0 e (hxevs ▸ he) with h | h
      · exact Or.inl h
      · exact Or.inr (Or.inl h)
    · rcases port_events_shape env stack (Int.ofNat d.container_port) e he with h | h
      · exact Or.inr (Or.inr (Or.inl h))
      · exact Or.inr (Or.inr (Or.inr h))

/-- The body of the exit-stack block never emits the cleanup events itself:
deletes and terminations only happen during unwinding. -/
theorem body_events_shape (env : Env) (p : Params) (e : Ev)
    (he : e ∈ (contextBody env p).1) :
    e ≠ Ev.deleteJob ∧ e ≠ Ev.terminateForward := by
  unfold contextBody at he
  rcases hs : (RunAIInteractiveJob.mk p.job_name p.image p.args).submit env with ⟨sevs, sr⟩
  rw [hs] at he
  have hsevs : sevs = ((RunAIInteractiveJob.mk p.job_name p.image p.args).submit env).1 := by
    rw [hs]
  have hsub : ∀ x ∈ sevs, x ≠ Ev.deleteJob ∧ x ≠ Ev.terminateForward := by
    intro x hx
    rcases submit_events_shape _ env x (hsevs ▸ hx) with ⟨rc, rfl⟩ | rfl | rfl | rfl <;>
      exact ⟨by simp, by simp⟩
  cases sr with
  | error t =>
    dsimp only at he
    exact hsub e he
  | ok job =>
    dsimp only at he
    cases hm : p.mode with
    | shell =>
      rw [hm] at he
      dsimp only [_handle_shell_context] at he
      rcases List.mem_append.mp he with he | he
      · exact hsub e he
      · simp at he
    | port =>
      rw [hm] at he
      dsimp only at he
      rcases List.mem_append.mp he with he | he
      · exact hsub e he
      · rcases port_events_shape env [Cleanup.deleteJob] (p.container_port.getD 0) e he with
          rfl | ⟨q, rfl⟩ <;> exact ⟨by simp, by simp⟩
    | jupyter =>
      rw [hm] at he
      dsimp only at he
      rcases List.mem_append.mp he with he | he
      · exact hsub e he
      · rcases jupyter_events_shape env [Cleanup.deleteJob] e he with
          rfl | rfl | rfl | ⟨q, rfl⟩ <;> exact ⟨by simp, by simp⟩

/-- The registered cleanups are always exactly the job delete, preceded by the
forward terminate when a forward was bound. -/
theorem body_stack_cases (env : Env) (p : Params) :
    (contextBody env p).2.1 = [Cleanup.deleteJob] ∨
    (contextBody env p).2.1 = [Cleanup.terminateForward, Cleanup.deleteJob] := by
  unfold contextBody
  rcases hs : (RunAIInteractiveJob.mk p.job_name p.image p.args).submit env with ⟨sevs, sr⟩
  cases sr with
  | error t => exact Or.inl rfl
  | ok job =>
    dsimp only
    cases p.mode with
    | shell => exact Or.inl rfl
    | port =>
      dsimp only [_handle_port_context]
      rcases hf : forwardScan env.kubectlLines with ⟨fevs, fr⟩
      cases fr with
      | error t => exact Or.inl rfl
      | ok v => exact Or.inr rfl
    | jupyter =>
      dsimp only [_handle_jupyter_context]
      rcases hx : extract_jupyter_details_from_job env.logsFetch with ⟨xevs, xr⟩
      cases xr with
      | error ex => exact Or.inl rfl
      | ok d =>
        dsimp only [_handle_port_context]
        rcases hf : forwardScan env.kubectlLines with ⟨fevs, fr⟩
        cases fr with
        | error t => exact Or.inl rfl
        | ok v => exact Or.inr rfl

/-- A bind event in the body trace means the forward context was entered
successfully, so the terminate callback sits on top of the delete callback. -/
theorem body_bind_stack (env : Env) (p : Params) (q : Int)
    (h : Ev.forwardBind q ∈ (contextBody env p).1) :
    (contextBody env p).2.1 = [Cleanup.terminateForward, Cleanup.deleteJob] := by
  have hsubno : ∀ sevs, sevs = ((RunAIInteractiveJob.mk p.job_name p.image p.args).submit env).1 →
      Ev.forwardBind q ∉ sevs := by
    intro sevs hsevs hmem
    rcases submit_events_shape _ env _ (hsevs ▸ hmem) with ⟨rc, hx⟩ | hx | hx | hx <;>
      simp at hx
  have hretno : ∀ xevs, xevs = (extract_jupyter_details_from_job env.logsFetch).1 →
      Ev.forwardBind q ∉ xevs := by
    intro xevs hxevs hmem
    rcases retry_events_shape env.logsFetch 20 0 _ (hxevs ▸ hmem) with hx | hx <;> simp at hx
  unfold contextBody at h ⊢
  rcases hs : (RunAIInteractiveJob.mk p.job_name p.image p.args).submit env with ⟨sevs, sr⟩
  rw [hs] at h
  have hsevs : sevs = ((RunAIInteractiveJob.mk p.job_name p.image p.args).submit env).1 := by
    rw [hs]
  cases sr with
  | error t =>
    dsimp only at h
    exact absurd h (hsubno sevs hsevs)
  | ok job =>
    dsimp only at h ⊢
    cases hm : p.mode with
    | shell =>
      rw [hm] at h
      dsimp only [_handle_shell_context] at h
      rcases List.mem_append.mp h with h | h
      · exact absurd h (hsubno sevs hsevs)
      · simp at h
    | port =>
      rw [hm] at h
      dsimp only at h
      rcases List.mem_append.mp h with h | h
      · exact absurd h (hsubno sevs hsevs)
      · unfold _handle_port_context at h ⊢
        rcases hf : forwardScan env.kubectlLines with ⟨fevs, fr⟩
        rw [hf] at h
        have hfevs : fevs = (forwardScan env.kubectlLines).1 := by rw [hf]
        cases fr with
        | error t =>
          dsimp only at h
          rcases List.mem_cons.mp h with hx | hx
          · simp at hx
          · obtain ⟨v, hv⟩ := forwardScan_bind_ok env.kubectlLines q (hfevs ▸ hx)
            rw [hf] at hv
            simp at hv
        | ok v => rfl
    | jupyter =>
      rw [hm] at h
      dsimp only at h ⊢
      rcases List.mem_append.mp h with h | h
      · exact absurd h (hsubno sevs hsevs)
      · unfold _handle_jupyter_context at h ⊢
        rcases hx : extract_jupyter_details_from_job env.logsFetch with ⟨xevs, xr⟩
        rw [hx] at h
        have hxevs : xevs = (extract_jupyter_details_from_job env.logsFetch).1 := by rw [hx]
        cases xr with
        | error ex =>
          dsimp only at h
          exact absurd h (hretno xevs hxevs)
        | ok d =>
          dsimp only at h ⊢
          rcases List.mem_append.mp h with h | h
          · exact absurd h (hretno xevs hxevs)
          · unfold _handle_port_context at h ⊢
            rcases hf : forwardScan env.kubectlLines with ⟨fevs, fr⟩
            rw [hf] at h
            have hfevs : fevs = (forwardScan env.kubectlLines).1 := by rw [hf]
            cases fr with
            | error t =>
              dsimp only at h
              rcases List.mem_cons.mp h with hy | hy
              · simp at hy
              · obtain ⟨v, hv⟩ := forwardScan_bind_ok env.kubectlLines q (hfevs ▸ hy)
                rw [hf] at hv
                simp at hv
            | ok v => rfl

theorem runStack_exc (env : Env) (evs : List Ev) (stack : List Cleanup) (e : PyExc) :
    runStack env (evs, stack, .exc e) =
      (evs ++ stack.map cleanupEv,
        outcomeOf (if env.interruptDuringCleanup then PyExc.keyboardInterrupt else e)) := rfl

theorem runStack_hang (env : Env) (evs : List Ev) (stack : List Cleanup) :
    runStack env (evs, stack, .hang) = (evs, .hang) := rfl

/-- When both precondition checks pass, the launcher is the exit-stack run of
the body, after the probe event. -/
theorem interactive_main (env : Env) (p : Params)
    (hchk : check_command env.runaiHelp = true)
    (hport : ¬(p.mode = RunAIInteractiveMode.port ∧ p.container_port = none)) :
    interactive_context env p =
      (Ev.checkCmd true :: (runStack env (contextBody env p)).1,
        (runStack env (contextBody env p)).2) := by
  unfold interactive_context
  rw [if_neg (by simp [hchk]), if_neg hport]

/-- Claim C9 (confirmed): when the scheduler probe fails, or port mode lacks a
container port, the process exits 1 having only run the probe: no submit, no
delete, nothing registered. -/
theorem C9_precondition_abort (env : Env) (p : Params)
    (h : check_command env.runaiHelp = false ∨
      (p.mode = RunAIInteractiveMode.port ∧ p.container_port = none)) :
    (interactive_context env p).2 = Outcome.exit 1
    ∧ (interactive_context env p).1 = [Ev.checkCmd (check_command env.runaiHelp)]
    ∧ (∀ rc, Ev.submit rc ∉ (interactive_context env p).1)
    ∧ Ev.deleteJob ∉ (interactive_context env p).1 := by
  have hres : interactive_context env p = ([Ev.checkCmd (check_command env.runaiHelp)],
      Outcome.exit 1) := by
    by_cases hchk : check_command env.runaiHelp = true
    · rcases h with h | h
      · rw [hchk] at h; exact absurd h (by simp)
      · unfold interactive_context
        rw [if_neg (by simp [hchk]), if_pos h, hchk]
    · have hf : check_command env.runaiHelp = false := by simpa using hchk
      unfold interactive_context
      rw [if_pos (by simp [hf]), hf]
  rw [hres]
  refine ⟨rfl, rfl, ?_, by simp⟩
  intro rc
  simp

/-- Witness for `C9_precondition_abort` on a run whose probe reports the
scheduler tool missing. -/
theorem C9_precondition_abort_witness :
    (check_command CmdResult.notFound = false ∨
      ((Params.mk "j" "img" [] RunAIInteractiveMode.shell none).mode =
          RunAIInteractiveMode.port ∧
        (Params.mk "j" "img" [] RunAIInteractiveMode.shell none).container_port = none))
    ∧ (interactive_context
        { runaiHelp := CmdResult.notFound, submitRc := 0, describes := [],
          kubectlLines := [], logsFetch := fun _ => LogsResult.ran 1 "",
          activeExit := none, interruptDuringCleanup := false }
        (Params.mk "j" "img" [] RunAIInteractiveMode.shell none)).2 = Outcome.exit 1 :=
  ⟨Or.inl (by decide),
    (C9_precondition_abort
      { runaiHelp := CmdResult.notFound, submitRc := 0, describes := [],
        kubectlLines := [], logsFetch := fun _ => LogsResult.ran 1 "",
        activeExit := none, interruptDuringCleanup := false }
      (Params.mk "j" "img" [] RunAIInteractiveMode.shell none)
      (Or.inl (by decide))).1⟩

/-- Claim C1, counterexample.  On a run whose submit command exits 1 (with the
probe passing), the process aborts with exit 1 — but the delete command IS
invoked during the unwinding, because `stack.push(job_def)` registers the
cleanup BEFORE `job_def.submit()` runs; the claim says the delete command is
never invoked on any path from that failure. -/
theorem C1_submit_failure_counterexample :
    interactive_context
      { runaiHelp := .ran 0, submitRc := 1, describes := [], kubectlLines := [],
        logsFetch := fun _ => LogsResult.ran 1 "", activeExit := none,
        interruptDuringCleanup := false }
      { job_name := "j", image := "img", args := [], mode := .shell,
        container_port := none }
      = ([.checkCmd true, .submit 1, .deleteJob], .exit 1)
    ∧ (interactive_context
        { runaiHelp := .ran 0, submitRc := 1, describes := [], kubectlLines := [],
          logsFetch := fun _ => LogsResult.ran 1 "", activeExit := none,
          interruptDuringCleanup := false }
        { job_name := "j", image := "img", args := [], mode := .shell,
          container_port := none }).1.count Ev.deleteJob = 1 := by
  refine ⟨by decide, by decide⟩

/-- Claim C1 (amended): if the job submission command exits nonzero (after the
precondition checks pass), the process aborts with a nonzero exit, and the
delete command — whose cleanup obligation was registered on the exit stack
before submission — is nevertheless invoked exactly once during unwinding. -/
theorem C1_submit_failure_amended (env : Env) (p : Params)
    (hchk : check_command env.runaiHelp = true)
    (hport : ¬(p.mode = RunAIInteractiveMode.port ∧ p.container_port = none))
    (hrc : env.submitRc ≠ 0) :
    (interactive_context env p).2 ≠ Outcome.exit 0
    ∧ (interactive_context env p).2 ≠ Outcome.hang
    ∧ (interactive_context env p).1.count Ev.deleteJob = 1 := by
  rw [interactive_main env p hchk hport]
  have hbody : contextBody env p = ([Ev.submit env.submitRc], [Cleanup.deleteJob],
      Term.exc (PyExc.typerExit 1)) := by
    unfold contextBody RunAIInteractiveJob.submit
    rw [if_pos (by simpa [bne_iff_ne] using hrc)]
  rw [hbody, runStack_exc]
  cases hic : env.interruptDuringCleanup <;>
    refine ⟨by simp [outcomeOf], by simp [outcomeOf], ?_⟩ <;>
    simp [List.count_cons, List.count_append, cleanupEv]

/-- Witness for `C1_submit_failure_amended` on a concrete failing submission. -/
theorem C1_submit_failure_amended_witness :
    (check_command (CmdResult.ran 0) = true
      ∧ ¬((Params.mk "j" "img" [] RunAIInteractiveMode.shell none).mode =
            RunAIInteractiveMode.port ∧
          (Params.mk "j" "img" [] RunAIInteractiveMode.shell none).container_port = none)
      ∧ (Env.mk (CmdResult.ran 0) 1 [] [] (fun _ => LogsResult.ran 1 "") none
          false).submitRc ≠ 0)
    ∧ (interactive_context
        (Env.mk (CmdResult.ran 0) 1 [] [] (fun _ => LogsResult.ran 1 "") none false)
        (Params.mk "j" "img" [] RunAIInteractiveMode.shell none)).1.count Ev.deleteJob
        = 1 :=
  ⟨⟨by decide, by decide, by decide⟩,
    (C1_submit_failure_amended
      (Env.mk (CmdResult.ran 0) 1 [] [] (fun _ => LogsResult.ran 1 "") none false)
      (Params.mk "j" "img" [] RunAIInteractiveMode.shell none)
      (by decide) (by decide) (by decide)).2.2⟩

/-- Claim C2 (confirmed): on every terminating execution path in which the
submission succeeded, the delete command is invoked exactly once before
process termination — whether the body ended by normal mode-handler return,
a fatal status, an exception, or an operator interrupt. -/
theorem C2_delete_exactly_once (env : Env) (p : Params)
    (hsub : Ev.submit 0 ∈ (interactive_context env p).1)
    (hterm : (interactive_context env p).2 ≠ Outcome.hang) :
    (interactive_context env p).1.count Ev.deleteJob = 1 := by
  by_cases hchk : check_command env.runaiHelp = true
  case neg =>
    unfold interactive_context at hsub
    rw [if_pos (by simp [Bool.not_eq_true] at hchk; simp [hchk])] at hsub
    simp at hsub
  by_cases hport : p.mode = RunAIInteractiveMode.port ∧ p.container_port = none
  case pos =>
    unfold interactive_context at hsub
    rw [if_neg (by simp [hchk]), if_pos hport] at hsub
    simp at hsub
  rw [interactive_main env p hchk hport] at hterm ⊢
  rcases hb : contextBody env p with ⟨bevs, stack, t⟩
  cases t with
  | hang =>
    rw [hb, runStack_hang] at hterm
    simp at hterm
  | exc e =>
    rw [runStack_exc]
    have h0 : bevs.count Ev.deleteJob = 0 := by
      refine List.count_eq_zero.mpr ?_
      intro hmem
      have := body_events_shape env p Ev.deleteJob (by rw [hb]; exact hmem)
      exact this.1 rfl
    have hst := body_stack_cases env p
    rw [hb] at hst
    dsimp only at hst
    rcases hst with rfl | rfl <;>
      simp [List.count_cons, List.count_append, cleanupEv, h0]

/-- Witness for `C2_delete_exactly_once` on a run that reaches the shell
handler and is interrupted there. -/
theorem C2_delete_exactly_once_witness :
    (Ev.submit 0 ∈ (interactive_context
        (Env.mk (CmdResult.ran 0) 0 [DescribeResult.ran 0 (DescribeOut.payload "j" "j-0-0" "Running")]
          [] (fun _ => LogsResult.ran 1 "") (some PyExc.keyboardInterrupt) false)
        (Params.mk "j" "img" [] RunAIInteractiveMode.shell none)).1
      ∧ (interactive_context
        (Env.mk (CmdResult.ran 0) 0 [DescribeResult.ran 0 (DescribeOut.payload "j" "j-0-0" "Running")]
          [] (fun _ => LogsResult.ran 1 "") (some PyExc.keyboardInterrupt) false)
        (Params.mk "j" "img" [] RunAIInteractiveMode.shell none)).2 ≠ Outcome.hang)
    ∧ (interactive_context
        (Env.mk (CmdResult.ran 0) 0 [DescribeResult.ran 0 (DescribeOut.payload "j" "j-0-0" "Running")]
          [] (fun _ => LogsResult.ran 1 "") (some PyExc.keyboardInterrupt) false)
        (Params.mk "j" "img" [] RunAIInteractiveMode.shell none)).1.count Ev.deleteJob = 1 :=
  ⟨⟨by decide, by decide⟩,
    C2_delete_exactly_once
      (Env.mk (CmdResult.ran 0) 0 [DescribeResult.ran 0 (DescribeOut.payload "j" "j-0-0" "Running")]
        [] (fun _ => LogsResult.ran 1 "") (some PyExc.keyboardInterrupt) false)
      (Params.mk "j" "img" [] RunAIInteractiveMode.shell none)
      (by decide) (by decide)⟩

/-- Claim C8 (confirmed): on every terminating run in which the port-forward
bind succeeded, the forwarding subprocess is terminated exactly once, and that
termination closes the forwarding scope before the enclosing job scope runs
its delete (the trace ends `..., terminate, delete`), whatever ended the
blocking wait. -/
theorem C8_forward_terminated (env : Env) (p : Params) (q : Int)
    (hbind : Ev.forwardBind q ∈ (interactive_context env p).1)
    (hterm : (interactive_context env p).2 ≠ Outcome.hang) :
    (interactive_context env p).1.count Ev.terminateForward = 1
    ∧ ∃ pre, (interactive_context env p).1 = pre ++ [Ev.terminateForward, Ev.deleteJob] := by
  by_cases hchk : check_command env.runaiHelp = true
  case neg =>
    unfold interactive_context at hbind
    rw [if_pos (by simp [Bool.not_eq_true] at hchk; simp [hchk])] at hbind
    simp at hbind
  by_cases hport : p.mode = RunAIInteractiveMode.port ∧ p.container_port = none
  case pos =>
    unfold interactive_context at hbind
    rw [if_neg (by simp [hchk]), if_pos hport] at hbind
    simp at hbind
  rw [interactive_main env p hchk hport] at hterm hbind ⊢
  rcases hb : contextBody env p with ⟨bevs, stack, t⟩
  rw [hb] at hbind
  cases t with
  | hang =>
    rw [hb, runStack_hang] at hterm
    simp at hterm
  | exc e =>
    rw [runStack_exc] at hbind ⊢
    have hbody : Ev.forwardBind q ∈ bevs := by
      dsimp only at hbind
      rcases List.mem_cons.mp hbind with hx | hx
      · simp at hx
      rcases List.mem_append.mp hx with hx | hx
      · exact hx
      · exfalso
        obtain ⟨c, -, hc⟩ := List.mem_map.mp hx
        cases c <;> simp [cleanupEv] at hc
    have hst := body_bind_stack env p q (by rw [hb]; exact hbody)
    rw [hb] at hst
    dsimp only at hst
    subst hst
    have h0 : bevs.count Ev.terminateForward = 0 := by
      refine List.count_eq_zero.mpr ?_
      intro hmem
      have := body_events_shape env p Ev.terminateForward (by rw [hb]; exact hmem)
      exact this.2 rfl
    constructor
    · simp [List.count_cons, List.count_append, cleanupEv, h0]
    · exact ⟨Ev.checkCmd true :: bevs, by simp [cleanupEv]⟩

/-- Witness for `C8_forward_terminated` on a port-mode run interrupted while
forwarding. -/
theorem C8_forward_terminated_witness :
    (Ev.forwardBind 34805 ∈ (interactive_context
        (Env.mk (CmdResult.ran 0) 0
          [DescribeResult.ran 0 (DescribeOut.payload "j" "j-0-0" "Running")]
          ["Forwarding from 127.0.0.1:34805 -> 8888"] (fun _ => LogsResult.ran 1 "")
          (some PyExc.keyboardInterrupt) false)
        (Params.mk "j" "img" [] RunAIInteractiveMode.port (some 8888))).1
      ∧ (interactive_context
        (Env.mk (CmdResult.ran 0) 0
          [DescribeResult.ran 0 (DescribeOut.payload "j" "j-0-0" "Running")]
          ["Forwarding from 127.0.0.1:34805 -> 8888"] (fun _ => LogsResult.ran 1 "")
          (some PyExc.keyboardInterrupt) false)
        (Params.mk "j" "img" [] RunAIInteractiveMode.port (some 8888))).2 ≠ Outcome.hang)
    ∧ ((interactive_context
        (Env.mk (CmdResult.ran 0) 0
          [DescribeResult.ran 0 (DescribeOut.payload "j" "j-0-0" "Running")]
          ["Forwarding from 127.0.0.1:34805 -> 8888"] (fun _ => LogsResult.ran 1 "")
          (some PyExc.keyboardInterrupt) false)
        (Params.mk "j" "img" [] RunAIInteractiveMode.port (some 8888))).1.count
        Ev.terminateForward = 1
      ∧ ∃ pre, (interactive_context
        (Env.mk (CmdResult.ran 0) 0
          [DescribeResult.ran 0 (DescribeOut.payload "j" "j-0-0" "Running")]
          ["Forwarding from 127.0.0.1:34805 -> 8888"] (fun _ => LogsResult.ran 1 "")
          (some PyExc.keyboardInterrupt) false)
        (Params.mk "j" "img" [] RunAIInteractiveMode.port (some 8888))).1
        = pre ++ [Ev.terminateForward, Ev.deleteJob]) :=
  ⟨⟨by decide, by decide⟩,
    C8_forward_terminated
      (Env.mk (CmdResult.ran 0) 0
        [DescribeResult.ran 0 (DescribeOut.payload "j" "j-0-0" "Running")]
        ["Forwarding from 127.0.0.1:34805 -> 8888"] (fun _ => LogsResult.ran 1 "")
        (some PyExc.keyboardInterrupt) false)
      (Params.mk "j" "img" [] RunAIInteractiveMode.port (some 8888)) 34805
      (by decide) (by decide)⟩

/-- Claim C3, counterexample.  When the scheduler executable is not found, the
status query does not return a `DOES_NOT_EXISTS` detail: `subprocess.run`
raises FileNotFoundError and `get_runai_job_status` (unlike `check_command`)
does not catch it, so the exception propagates. -/
theorem C3_status_query_counterexample :
    get_runai_job_status "j" DescribeResult.notFound
      = Except.error PyExc.fileNotFoundError
    ∧ get_runai_job_status "j" DescribeResult.notFound
      ≠ Except.ok (RunAIJobDetails.mk "j" "j" RunAIJobStatus.DOES_NOT_EXISTS) := by
  refine ⟨by decide, by decide⟩

/-- Claim C3 (amended): a status query whose scheduler tool exits nonzero is
interpreted as the `DOES_NOT_EXISTS` status, which the poller treats as fatal
(`typer.Exit(1)` on the very next poll); but a query whose scheduler
executable is not found raises an uncaught FileNotFoundError instead of being
mapped to any status. -/
theorem C3_status_query_amended :
    (∀ (name : String) (rc : Int) (out : DescribeOut), rc ≠ 0 →
      get_runai_job_status name (DescribeResult.ran rc out)
        = Except.ok (RunAIJobDetails.mk name name RunAIJobStatus.DOES_NOT_EXISTS))
    ∧ (∀ name : String, get_runai_job_status name DescribeResult.notFound
        = Except.error PyExc.fileNotFoundError)
    ∧ (∀ (name : String) (notified : Bool) (r : DescribeResult)
        (rest : List DescribeResult) (job : RunAIJobDetails),
        get_runai_job_status name r = Except.ok job →
        job.status = RunAIJobStatus.DOES_NOT_EXISTS →
        wait_until_job_started name notified (r :: rest)
          = ([Ev.describe], Except.error (Term.exc (PyExc.typerExit 1)))) := by
  refine ⟨?_, fun name => rfl, ?_⟩
  · intro name rc out hrc
    unfold get_runai_job_status
    dsimp only
    rw [if_pos (by simpa [bne_iff_ne] using hrc)]
  · intro name notified r rest job hget hst
    simp only [wait_until_job_started]
    rw [hget]
    dsimp only
    rw [if_neg (by rw [hst]; simp), if_pos hst]

/-- Witness for `C3_status_query_amended`: a nonzero-exit query, and the
poller aborting on the resulting status. -/
theorem C3_status_query_amended_witness :
    ((1 : Int) ≠ 0
      ∧ get_runai_job_status "j" (DescribeResult.ran 1 DescribeOut.invalidJson)
        = Except.ok (RunAIJobDetails.mk "j" "j" RunAIJobStatus.DOES_NOT_EXISTS))
    ∧ (get_runai_job_status "j" (DescribeResult.ran 1 DescribeOut.invalidJson)
        = Except.ok (RunAIJobDetails.mk "j" "j" RunAIJobStatus.DOES_NOT_EXISTS)
      ∧ (RunAIJobDetails.mk "j" "j" RunAIJobStatus.DOES_NOT_EXISTS).status
        = RunAIJobStatus.DOES_NOT_EXISTS
      ∧ wait_until_job_started "j" false [DescribeResult.ran 1 DescribeOut.invalidJson]
        = ([Ev.describe], Except.error (Term.exc (PyExc.typerExit 1)))) :=
  ⟨⟨by decide, C3_status_query_amended.1 "j" 1 DescribeOut.invalidJson (by decide)⟩,
    ⟨by decide, by decide,
      C3_status_query_amended.2.2 "j" false (DescribeResult.ran 1 DescribeOut.invalidJson)
        [] (RunAIJobDetails.mk "j" "j" RunAIJobStatus.DOES_NOT_EXISTS)
        (by decide) (by decide)⟩⟩

/-- One-step unfolding of the poll loop on a nonempty oracle. -/
theorem wait_cons (name : String) (notified : Bool) (r : DescribeResult)
    (rest : List DescribeResult) :
    wait_until_job_started name notified (r :: rest) =
      match get_runai_job_status name r with
      | .error e => ([Ev.describe], .error (.exc e))
      | .ok job =>
        if job.status = RunAIJobStatus.RUNNING then ([Ev.describe], .ok job)
        else if job.status = RunAIJobStatus.DOES_NOT_EXISTS then
          ([Ev.describe], .error (.exc (.typerExit 1)))
        else if job.status = RunAIJobStatus.IMAGEPULLBACKOFF then
          ([Ev.describe], .error (.exc (.typerExit 1)))
        else
          (Ev.describe ::
            ((if (job.status == RunAIJobStatus.CONTAINERCREATING && !notified)
              then [Ev.printCreating] else []) ++
              Ev.sleep 5 ::
                (wait_until_job_started name
                  (notified || (job.status == RunAIJobStatus.CONTAINERCREATING && !notified))
                  rest).1),
            (wait_until_job_started name
              (notified || (job.status == RunAIJobStatus.CONTAINERCREATING && !notified))
              rest).2) := rfl

/-- Generalisation of claim C4 over the notified flag: on a fatal-free poll
sequence ending in `Running`, the loop returns a running handle and emits the
creating-container notice at most once (never once already notified). -/
theorem wait_running_aux (name : String) :
    ∀ (results : List DescribeResult) (notified : Bool),
      results ≠ [] →
      (∀ r ∈ results, ∃ j, get_runai_job_status name r = Except.ok j
        ∧ j.status ≠ RunAIJobStatus.DOES_NOT_EXISTS
        ∧ j.status ≠ RunAIJobStatus.IMAGEPULLBACKOFF) →
      (∃ rl jl, results.getLast? = some rl
        ∧ get_runai_job_status name rl = Except.ok jl
        ∧ jl.status = RunAIJobStatus.RUNNING) →
      ∃ evs j, wait_until_job_started name notified results = (evs, Except.ok j)
        ∧ j.status = RunAIJobStatus.RUNNING
        ∧ evs.count Ev.printCreating ≤ (if notified then 0 else 1) := by
  intro results
  induction results with
  | nil => intro notified hne _ _; exact absurd rfl hne
  | cons r rest ih =>
    intro notified _ hok hlast
    obtain ⟨j, hget, hdne, hipbo⟩ := hok r (List.mem_cons_self r rest)
    by_cases hrun : j.status = RunAIJobStatus.RUNNING
    · refine ⟨[Ev.describe], j, ?_, hrun, by simp⟩
      rw [wait_cons, hget]
      dsimp only
      rw [if_pos hrun]
    · cases rest with
      | nil =>
        exfalso
        obtain ⟨rl, jl, hrl, hgetl, hstl⟩ := hlast
        simp only [List.getLast?_singleton, Option.some.injEq] at hrl
        subst hrl
        rw [hget] at hgetl
        injection hgetl with hj
        subst hj
        exact hrun hstl
      | cons r2 rest2 =>
        have hnotice :
            ∃ evs j2, wait_until_job_started name
                (notified || (j.status == RunAIJobStatus.CONTAINERCREATING && !notified))
                (r2 :: rest2) = (evs, Except.ok j2)
              ∧ j2.status = RunAIJobStatus.RUNNING
              ∧ evs.count Ev.printCreating ≤
                (if (notified || (j.status == RunAIJobStatus.CONTAINERCREATING && !notified))
                  then 0 else 1) := by
          refine ih _ (by simp) (fun x hx => hok x (List.mem_cons_of_mem r hx)) ?_
          obtain ⟨rl, jl, hrl, hgetl, hstl⟩ := hlast
          rw [List.getLast?_cons_cons] at hrl
          exact ⟨rl, jl, hrl, hgetl, hstl⟩
        obtain ⟨evs2, j2, heq2, hst2, hcnt2⟩ := hnotice
        refine ⟨Ev.describe ::
          ((if (j.status == RunAIJobStatus.CONTAINERCREATING && !notified) = true
            then [Ev.printCreating] else []) ++ Ev.sleep 5 :: evs2), j2, ?_, hst2, ?_⟩
        · rw [wait_cons, hget]
          dsimp only
          rw [if_neg hrun, if_neg hdne, if_neg hipbo, heq2]
        · by_cases hcc : (j.status == RunAIJobStatus.CONTAINERCREATING && !notified) = true
          · have hnf : notified = false := by
              have h2 := ((Bool.and_eq_true _ _).mp hcc).2
              simpa using h2
            have hor : (notified ||
                (j.status == RunAIJobStatus.CONTAINERCREATING && !notified)) = true := by
              rw [hcc]; simp
            rw [hor] at hcnt2
            simp at hcnt2
            rw [if_pos hcc, hnf]
            simp [List.count_cons, List.count_append, hcnt2]
          · have hccf : (j.status == RunAIJobStatus.CONTAINERCREATING && !notified) = false := by
              simpa using hcc
            rw [hccf] at hcnt2
            simp only [Bool.or_false] at hcnt2
            rw [if_neg hcc]
            cases notified with
            | true =>
              simp at hcnt2
              simp [List.count_cons, List.count_append, hcnt2]
            | false =>
              simp [List.count_cons, List.count_append] at hcnt2 ⊢
              omega

/-- Claim C4 (confirmed): on any poll sequence whose statuses contain no
`DOES_NOT_EXISTS` or `IMAGEPULLBACKOFF` and whose final poll reports
`RUNNING`, the loop returns a handle whose status is `RUNNING`, and the
creating-container notice is emitted at most once over the whole run, even if
`CONTAINERCREATING` is observed on several consecutive polls. -/
theorem C4_poll_until_running (name : String) (results : List DescribeResult)
    (hne : results ≠ [])
    (hok : ∀ r ∈ results, ∃ j, get_runai_job_status name r = Except.ok j
      ∧ j.status ≠ RunAIJobStatus.DOES_NOT_EXISTS
      ∧ j.status ≠ RunAIJobStatus.IMAGEPULLBACKOFF)
    (hlast : ∃ rl jl, results.getLast? = some rl
      ∧ get_runai_job_status name rl = Except.ok jl
      ∧ jl.status = RunAIJobStatus.RUNNING) :
    ∃ evs j, wait_until_job_started name false results = (evs, Except.ok j)
      ∧ j.status = RunAIJobStatus.RUNNING
      ∧ evs.count Ev.printCreating ≤ 1 := by
  obtain ⟨evs, j, heq, hst, hcnt⟩ := wait_running_aux name results false hne hok hlast
  exact ⟨evs, j, heq, hst, by simpa using hcnt⟩

/-- Witness for `C4_poll_until_running` on a run that sees Pending, then two
consecutive ContainerCreating polls, then Running. -/
theorem C4_poll_until_running_witness :
    (([DescribeResult.ran 0 (DescribeOut.payload "j" "j-0-0" "Pending"),
        DescribeResult.ran 0 (DescribeOut.payload "j" "j-0-0" "ContainerCreating"),
        DescribeResult.ran 0 (DescribeOut.payload "j" "j-0-0" "ContainerCreating"),
        DescribeResult.ran 0 (DescribeOut.payload "j" "j-0-0" "Running")]
          : List DescribeResult) ≠ []
      ∧ (∀ r ∈ ([DescribeResult.ran 0 (DescribeOut.payload "j" "j-0-0" "Pending"),
          DescribeResult.ran 0 (DescribeOut.payload "j" "j-0-0" "ContainerCreating"),
          DescribeResult.ran 0 (DescribeOut.payload "j" "j-0-0" "ContainerCreating"),
          DescribeResult.ran 0 (DescribeOut.payload "j" "j-0-0" "Running")]
            : List DescribeResult),
          ∃ j, get_runai_job_status "j" r = Except.ok j
            ∧ j.status ≠ RunAIJobStatus.DOES_NOT_EXISTS
            ∧ j.status ≠ RunAIJobStatus.IMAGEPULLBACKOFF)
      ∧ (∃ rl jl, ([DescribeResult.ran 0 (DescribeOut.payload "j" "j-0-0" "Pending"),
          DescribeResult.ran 0 (DescribeOut.payload "j" "j-0-0" "ContainerCreating"),
          DescribeResult.ran 0 (DescribeOut.payload "j" "j-0-0" "ContainerCreating"),
          DescribeResult.ran 0 (DescribeOut.payload "j" "j-0-0" "Running")]
            : List DescribeResult).getLast? = some rl
          ∧ get_runai_job_status "j" rl = Except.ok jl
          ∧ jl.status = RunAIJobStatus.RUNNING))
    ∧ (∃ evs j, wait_until_job_started "j" false
        [DescribeResult.ran 0 (DescribeOut.payload "j" "j-0-0" "Pending"),
          DescribeResult.ran 0 (DescribeOut.payload "j" "j-0-0" "ContainerCreating"),
          DescribeResult.ran 0 (DescribeOut.payload "j" "j-0-0" "ContainerCreating"),
          DescribeResult.ran 0 (DescribeOut.payload "j" "j-0-0" "Running")]
          = (evs, Except.ok j)
        ∧ j.status = RunAIJobStatus.RUNNING
        ∧ evs.count Ev.printCreating ≤ 1) := by
  have hok : ∀ r ∈ ([DescribeResult.ran 0 (DescribeOut.payload "j" "j-0-0" "Pending"),
      DescribeResult.ran 0 (DescribeOut.payload "j" "j-0-0" "ContainerCreating"),
      DescribeResult.ran 0 (DescribeOut.payload "j" "j-0-0" "ContainerCreating"),
      DescribeResult.ran 0 (DescribeOut.payload "j" "j-0-0" "Running")]
        : List DescribeResult),
      ∃ j, get_runai_job_status "j" r = Except.ok j
        ∧ j.status ≠ RunAIJobStatus.DOES_NOT_EXISTS
        ∧ j.status ≠ RunAIJobStatus.IMAGEPULLBACKOFF := by
    intro r hr
    simp only [List.mem_cons, List.not_mem_nil, or_false] at hr
    rcases hr with rfl | rfl | rfl | rfl
    · exact ⟨RunAIJobDetails.mk "j" "j-0-0" RunAIJobStatus.PENDING,
        by decide, by decide, by decide⟩
    · exact ⟨RunAIJobDetails.mk "j" "j-0-0" RunAIJobStatus.CONTAINERCREATING,
        by decide, by decide, by decide⟩
    · exact ⟨RunAIJobDetails.mk "j" "j-0-0" RunAIJobStatus.CONTAINERCREATING,
        by decide, by decide, by decide⟩
    · exact ⟨RunAIJobDetails.mk "j" "j-0-0" RunAIJobStatus.RUNNING,
        by decide, by decide, by decide⟩
  have hlast : ∃ rl jl, ([DescribeResult.ran 0 (DescribeOut.payload "j" "j-0-0" "Pending"),
      DescribeResult.ran 0 (DescribeOut.payload "j" "j-0-0" "ContainerCreating"),
      DescribeResult.ran 0 (DescribeOut.payload "j" "j-0-0" "ContainerCreating"),
      DescribeResult.ran 0 (DescribeOut.payload "j" "j-0-0" "Running")]
        : List DescribeResult).getLast? = some rl
      ∧ get_runai_job_status "j" rl = Except.ok jl
      ∧ jl.status = RunAIJobStatus.RUNNING :=
    ⟨DescribeResult.ran 0 (DescribeOut.payload "j" "j-0-0" "Running"),
      RunAIJobDetails.mk "j" "j-0-0" RunAIJobStatus.RUNNING, by decide, by decide, rfl⟩
  exact ⟨⟨by decide, hok, hlast⟩,
    C4_poll_until_running "j"
      [DescribeResult.ran 0 (DescribeOut.payload "j" "j-0-0" "Pending"),
        DescribeResult.ran 0 (DescribeOut.payload "j" "j-0-0" "ContainerCreating"),
        DescribeResult.ran 0 (DescribeOut.payload "j" "j-0-0" "ContainerCreating"),
        DescribeResult.ran 0 (DescribeOut.payload "j" "j-0-0" "Running")]
      (by decide) hok hlast⟩

/-- The retry loop makes exactly `budgetCounts` attempts: the attempt count
(= number of log fetches) depends only on the classes of the attempts. -/
theorem retry_fetch_count (logs : Nat → LogsResult) :
    ∀ (t i : Nat),
      (retryGo (extractAttempt logs) 10 i t).1.count Ev.logsFetch
        = budgetCounts (attemptClass logs) i t := by
  intro t
  induction t with
  | zero =>
    intro i
    simp only [retryGo, budgetCounts, extractAttempt_events]
    rfl
  | succ t ih =>
    intro i
    simp only [retryGo]
    rcases hf : extractAttempt logs i with ⟨evs, r⟩
    have hevs : evs = [Ev.logsFetch] := by
      have := extractAttempt_events logs i
      rw [hf] at this
      exact this
    cases r with
    | ok a =>
      have hcls : attemptClass logs i = AttemptClass.succeeds := by
        unfold attemptClass
        rw [hf]
      dsimp only
      rw [hevs]
      simp only [budgetCounts, hcls]
      rfl
    | error e =>
      have hcls : attemptClass logs i =
          (if retryCaught e then AttemptClass.retried else AttemptClass.fatal) := by
        unfold attemptClass
        rw [hf]
      dsimp only
      by_cases hc : retryCaught e = true
      · rw [if_pos hc]
        by_cases ht : t = 0
        · rw [if_pos ht, hevs]
          simp only [budgetCounts, hcls, if_pos hc, ht]
          rfl
        · rw [if_neg ht, hevs]
          simp only [budgetCounts, hcls, if_pos hc, if_neg ht]
          simp only [List.count_cons, List.count_append, List.count_nil, ih (i + 1)]
          simp
      · rw [if_neg hc, hevs]
        have hcf : retryCaught e = false := by simpa using hc
        simp only [budgetCounts, hcls, hcf]
        rfl

/-- Every entry of `budgetCounts` counts at least one attempt. -/
theorem budgetCounts_pos (cls : Nat → AttemptClass) :
    ∀ (t i : Nat), 1 ≤ budgetCounts cls i t := by
  intro t
  cases t with
  | zero => intro i; exact Nat.le_refl 1
  | succ t =>
    intro i
    unfold budgetCounts
    cases cls i with
    | succeeds => exact Nat.le_refl 1
    | fatal => exact Nat.le_refl 1
    | retried =>
      dsimp only
      split
      · exact Nat.le_refl 1
      · exact Nat.le_add_right 1 _

/-- With `t + 1` tries remaining the retry loop makes at most `t + 1`
attempts. -/
theorem budgetCounts_le (cls : Nat → AttemptClass) :
    ∀ (t i : Nat), budgetCounts cls i (t + 1) ≤ t + 1 := by
  intro t
  induction t with
  | zero =>
    intro i
    unfold budgetCounts
    cases cls i <;> simp
  | succ t ih =>
    intro i
    unfold budgetCounts
    cases cls i with
    | succeeds => dsimp only; omega
    | fatal => dsimp only; omega
    | retried =>
      dsimp only
      rw [if_neg (Nat.succ_ne_zero t)]
      have := ih (i + 1)
      omega

/-- The retry loop sleeps exactly once between consecutive attempts: the
number of `sleep 10` events is one less than the number of attempts. -/
theorem retry_sleep_count (logs : Nat → LogsResult) :
    ∀ (t i : Nat),
      (retryGo (extractAttempt logs) 10 i t).1.count (Ev.sleep 10)
        = budgetCounts (attemptClass logs) i t - 1 := by
  intro t
  induction t with
  | zero =>
    intro i
    simp only [retryGo, budgetCounts, extractAttempt_events]
    rfl
  | succ t ih =>
    intro i
    simp only [retryGo]
    rcases hf : extractAttempt logs i with ⟨evs, r⟩
    have hevs : evs = [Ev.logsFetch] := by
      have := extractAttempt_events logs i
      rw [hf] at this
      exact this
    cases r with
    | ok a =>
      have hcls : attemptClass logs i = AttemptClass.succeeds := by
        unfold attemptClass
        rw [hf]
      dsimp only
      rw [hevs]
      simp only [budgetCounts, hcls]
      rfl
    | error e =>
      have hcls : attemptClass logs i =
          (if retryCaught e then AttemptClass.retried else AttemptClass.fatal) := by
        unfold attemptClass
        rw [hf]
      dsimp only
      by_cases hc : retryCaught e = true
      · rw [if_pos hc]
        by_cases ht : t = 0
        · rw [if_pos ht, hevs]
          simp only [budgetCounts, hcls, if_pos hc, ht]
          rfl
        · rw [if_neg ht, hevs]
          have hpos := budgetCounts_pos (attemptClass logs) t (i + 1)
          simp only [budgetCounts, hcls, if_pos hc, if_neg ht]
          simp only [List.count_cons, List.count_append, List.count_nil, ih (i + 1)]
          simp
          omega
      · rw [if_neg hc, hevs]
        have hcf : retryCaught e = false := by simpa using hc
        simp only [budgetCounts, hcls, hcf]
        rfl

/-- C6: the notebook-endpoint extraction (`extract_jupyter_details_from_job`,
decorated `@retry.retry((CalledProcessError, ValueError), delay=10, tries=20)`)
makes at most 20 log-fetch attempts, sleeps exactly 10 time units between
consecutive attempts (one sleep fewer than attempts, and every sleep in the
trace is 10 units), and the budget is uniform across failure categories:
two environments whose attempts fall in the same classes (success / caught
failure / uncaught failure) produce the same number of fetches and sleeps. -/
theorem C6_retry_budget (logs logs2 : Nat → LogsResult)
    (h : ∀ i, attemptClass logs i = attemptClass logs2 i) :
    (extract_jupyter_details_from_job logs).1.count Ev.logsFetch ≤ 20
    ∧ (extract_jupyter_details_from_job logs).1.count (Ev.sleep 10)
        = (extract_jupyter_details_from_job logs).1.count Ev.logsFetch - 1
    ∧ (∀ d, Ev.sleep d ∈ (extract_jupyter_details_from_job logs).1 → d = 10)
    ∧ (extract_jupyter_details_from_job logs).1.count Ev.logsFetch
        = (extract_jupyter_details_from_job logs2).1.count Ev.logsFetch
    ∧ (extract_jupyter_details_from_job logs).1.count (Ev.sleep 10)
        = (extract_jupyter_details_from_job logs2).1.count (Ev.sleep 10) := by
  have hcls : attemptClass logs = attemptClass logs2 := funext h
  refine ⟨?_, ?_, ?_, ?_, ?_⟩
  · unfold extract_jupyter_details_from_job
    rw [retry_fetch_count logs]
    exact budgetCounts_le (attemptClass logs) 19 0
  · unfold extract_jupyter_details_from_job
    rw [retry_fetch_count logs, retry_sleep_count logs]
  · intro d hd
    unfold extract_jupyter_details_from_job at hd
    rcases retry_events_shape logs 20 0 (Ev.sleep d) hd with h1 | h1
    · simp at h1
    · injection h1 with h2
  · unfold extract_jupyter_details_from_job
    rw [retry_fetch_count logs, retry_fetch_count logs2, hcls]
  · unfold extract_jupyter_details_from_job
    rw [retry_sleep_count logs, retry_sleep_count logs2, hcls]

/-- Witness for C6 at two concrete environments exhibiting the two failure
categories: every fetch failing (exit 1) versus every fetch succeeding with
endpoint-free logs; both consume the identical budget. -/
theorem C6_retry_budget_witness :
    (∀ i, attemptClass (fun _ => LogsResult.ran 1 "") i
        = attemptClass (fun _ => LogsResult.ran 0 "") i)
    ∧ ((extract_jupyter_details_from_job (fun _ => LogsResult.ran 1 "")).1.count Ev.logsFetch ≤ 20
      ∧ (extract_jupyter_details_from_job (fun _ => LogsResult.ran 1 "")).1.count (Ev.sleep 10)
          = (extract_jupyter_details_from_job (fun _ => LogsResult.ran 1 "")).1.count Ev.logsFetch - 1
      ∧ (∀ d, Ev.sleep d ∈ (extract_jupyter_details_from_job (fun _ => LogsResult.ran 1 "")).1 → d = 10)
      ∧ (extract_jupyter_details_from_job (fun _ => LogsResult.ran 1 "")).1.count Ev.logsFetch
          = (extract_jupyter_details_from_job (fun _ => LogsResult.ran 0 "")).1.count Ev.logsFetch
      ∧ (extract_jupyter_details_from_job (fun _ => LogsResult.ran 1 "")).1.count (Ev.sleep 10)
          = (extract_jupyter_details_from_job (fun _ => LogsResult.ran 0 "")).1.count (Ev.sleep 10)) :=
  ⟨fun _ => rfl,
    C6_retry_budget (fun _ => LogsResult.ran 1 "") (fun _ => LogsResult.ran 0 "")
      (fun _ => rfl)⟩

/-- C7 counterexample: with every log fetch failing (nonzero exit), the
exhausted retry propagates the final CalledProcessError, not the
distinguishable `ValueError("No jupyter details found")`. -/
theorem C7_exhaustion_counterexample :
    (extract_jupyter_details_from_job (fun _ => LogsResult.ran 1 "")).2
      = Except.error PyExc.calledProcessError
    ∧ (extract_jupyter_details_from_job (fun _ => LogsResult.ran 1 "")).2
      ≠ Except.error (PyExc.valueError "No jupyter details found") := by
  constructor
  · decide
  · decide

/-- One-step unfolding of `retryGo` with at least one retry remaining. -/
theorem retryGo_succ {w : Type} (f : Nat → List Ev × Except PyExc w)
    (delay i t : Nat) :
    retryGo f delay i (t + 1)
      = match f i with
        | (evs, .ok a) => (evs, .ok a)
        | (evs, .error e) =>
          if retryCaught e then
            if t = 0 then (evs, .error e)
            else
              let w := retryGo f delay (i + 1) t
              (evs ++ .sleep delay :: w.1, w.2)
          else (evs, .error e) := rfl

/-- When every attempt before the last fails with a caught exception, the
retry loop's result is exactly the final attempt's result. -/
theorem retry_final_attempt (logs : Nat → LogsResult) :
    ∀ (t i : Nat),
      (∀ k, k < t → attemptClass logs (i + k) = AttemptClass.retried) →
      (retryGo (extractAttempt logs) 10 i (t + 1)).2
        = (extractAttempt logs (i + t)).2 := by
  intro t
  induction t with
  | zero =>
    intro i _
    simp only [retryGo, Nat.add_zero]
    rcases hf : extractAttempt logs i with ⟨evs, r⟩
    dsimp only
    cases r with
    | ok a => rfl
    | error e =>
      dsimp only
      by_cases hc : retryCaught e = true
      · rw [if_pos hc]
        simp
      · rw [if_neg hc]
  | succ t ih =>
    intro i h
    have h0 : attemptClass logs i = AttemptClass.retried := by
      have := h 0 (Nat.succ_pos t)
      simpa using this
    rw [retryGo_succ]
    rcases hf : extractAttempt logs i with ⟨evs, r⟩
    cases r with
    | ok a =>
      have hx : attemptClass logs i = AttemptClass.succeeds := by
        unfold attemptClass
        rw [hf]
      rw [hx] at h0
      simp at h0
    | error e =>
      have hx : attemptClass logs i =
          (if retryCaught e then AttemptClass.retried else AttemptClass.fatal) := by
        unfold attemptClass
        rw [hf]
      have hc : retryCaught e = true := by
        by_cases hc : retryCaught e = true
        · exact hc
        · rw [hx, if_neg hc] at h0
          simp at h0
      dsimp only
      rw [if_pos hc, if_neg (Nat.succ_ne_zero t)]
      dsimp only
      have hrec := ih (i + 1) (fun k hk => by
        have := h (k + 1) (by omega)
        rwa [show i + (k + 1) = i + 1 + k by omega] at this)
      rw [hrec, show i + 1 + t = i + (t + 1) by omega]

/-- C7 (amended): when the retry budget is exhausted — all 20 attempts raise
a caught exception — the propagated failure is exactly the final (20th)
attempt's exception: the distinguishable
`ValueError("No jupyter details found")` only when the final fetch
succeeded but its logs exposed no endpoint, and a generic
CalledProcessError when the final fetch itself failed. -/
theorem C7_exhaustion_amended (logs : Nat → LogsResult)
    (h : ∀ k, k < 20 → attemptClass logs k = AttemptClass.retried) :
    (extract_jupyter_details_from_job logs).2 = (extractAttempt logs 19).2 := by
  have hres := retry_final_attempt logs 19 0 (fun k hk => by
    have := h k (by omega)
    simpa using this)
  simpa [extract_jupyter_details_from_job] using hres

/-- Witness for C7 (amended) at an environment where every fetch succeeds
but the logs never contain an endpoint. -/
theorem C7_exhaustion_amended_witness :
    (∀ k, k < 20 → attemptClass (fun _ => LogsResult.ran 0 "") k
        = AttemptClass.retried)
    ∧ (extract_jupyter_details_from_job (fun _ => LogsResult.ran 0 "")).2
        = (extractAttempt (fun _ => LogsResult.ran 0 "") 19).2 :=
  ⟨by decide, C7_exhaustion_amended (fun _ => LogsResult.ran 0 "") (by decide)⟩
